import Mathlib

set_option maxHeartbeats 1000000
set_option maxRecDepth 10000

/-!
Shallow embedding of the RTP/H.264 receiver (src/ref.py and src/test.py).

Bytes are modelled as `Nat` (values below 256 in any real datagram), byte
buffers as `List Nat`.  The receive loop of `test.py: main` is modelled as a
state-transition function `rxStep` over `RxState`, folded over the list of
incoming datagrams by `rxRun`.  Loops of the Python source that advance a
cursor (`find_start_codes`, `collect_start_code_lengths`, the STAP-A inner
loop) are modelled with an explicit fuel argument, always called with enough
fuel for the loop to run to completion, so that every definition evaluates by
`decide` / `rfl`.
-/

/-! ## Start codes (src/ref.py lines 4-5, src/test.py lines 13-14) -/

def START_CODE_3 : List Nat := [0, 0, 1]

def START_CODE_4 : List Nat := [0, 0, 0, 1]

/-- `data[i:i+4] == START_CODE_4` -/
def isSC4 (data : List Nat) (i : Nat) : Bool :=
  decide ((data.drop i).take 4 = START_CODE_4)

/-- `data[i:i+3] == START_CODE_3` -/
def isSC3 (data : List Nat) (i : Nat) : Bool :=
  decide ((data.drop i).take 3 = START_CODE_3)

/-! ## AnnexBScanner: `find_start_codes` (src/ref.py lines 15-27) -/

/-- The `while i < len(data) - 3` loop of `find_start_codes`, with fuel.
One unit of fuel is spent per iteration; the loop runs at most
`data.length` iterations, so fuel `data.length` suffices. -/
def findFromF (data : List Nat) : Nat → Nat → List Nat
  | 0, _ => []
  | fuel + 1, i =>
    if i + 3 < data.length then
      if isSC4 data i then i :: findFromF data fuel (i + 4)
      else if isSC3 data i then i :: findFromF data fuel (i + 3)
      else findFromF data fuel (i + 1)
    else []

/-- `find_start_codes` of src/ref.py. -/
def find_start_codes (data : List Nat) : List Nat :=
  findFromF data data.length 0

/-- Length of the start code found at position `p` (`ref.py` lines 38-41:
4-byte code takes priority). -/
def scLenAt (data : List Nat) (p : Nat) : Nat :=
  if isSC4 data p then 4 else 3

/-! ## `collect_start_code_lengths` (src/test.py lines 30-51).
The file is read in chunks in the source; semantically the loop scans the
whole buffer with the cursor rule below (`while i <= len(data) - 4`),
recording 4 for each four-byte and 3 for each three-byte start code.  A
trailing chunk of at most three bytes is never scanned. -/

def collectFromF (data : List Nat) : Nat → Nat → List Nat
  | 0, _ => []
  | fuel + 1, i =>
    if i + 4 ≤ data.length then
      if isSC4 data i then 4 :: collectFromF data fuel (i + 4)
      else if isSC3 data i then 3 :: collectFromF data fuel (i + 3)
      else collectFromF data fuel (i + 1)
    else []

def collect_start_code_lengths (data : List Nat) : List Nat :=
  collectFromF data data.length 0

/-! ## `parse_annexb` (src/ref.py lines 30-60) -/

/-- Slice of `data` holding the NAL unit that begins after the start code at
position `p` and ends at position `e` (`ref.py` lines 36-44). -/
def sliceAt (data : List Nat) (p e : Nat) : List Nat :=
  (data.drop (p + scLenAt data p)).take (e - (p + scLenAt data p))

/-- The `for i in range(len(starts) - 1)` loop of `parse_annexb`: slices
between consecutive start-code positions (with `len(data)` as the sentinel
end), skipping empty slices. -/
def slicesAux (data : List Nat) : List Nat → List (List Nat)
  | [] => []
  | p :: rest =>
    let e := match rest with
      | [] => data.length
      | q :: _ => q
    let u := sliceAt data p e
    if u.isEmpty then slicesAux data rest else u :: slicesAux data rest

/-- The byte strings of the NAL units `parse_annexb` yields, in order. -/
def annexbSlices (data : List Nat) : List (List Nat) :=
  slicesAux data (find_start_codes data)

structure NALUnit where
  nal_ref_idc : Nat
  nal_unit_type : Nat
  payload : List Nat
deriving DecidableEq

/-- Header decoding of one NAL unit (`ref.py` lines 48-60); `none` models the
`ValueError` raised on a set forbidden bit. -/
def decodeNAL (nal : List Nat) : Option NALUnit :=
  let header := nal.getD 0 0
  if (header >>> 7) &&& 1 ≠ 0 then none
  else some ⟨(header >>> 5) &&& 3, header &&& 31, nal.drop 1⟩

/-- `parse_annexb` of src/ref.py (the whole generator run to completion;
`none` models the raised `ValueError`). -/
def parse_annexb (data : List Nat) : Option (List NALUnit) :=
  (annexbSlices data).mapM decodeNAL

/-! ## `parse_rtp_header` (src/test.py lines 65-100) -/

structure RTPHeader where
  version : Nat
  marker : Nat
  payload_type : Nat
  sequence : Nat
  timestamp : Nat
  ssrc : Nat
  payload : List Nat
deriving DecidableEq

def rtpB0 (d : List Nat) : Nat := d.getD 0 0

def rtpB1 (d : List Nat) : Nat := d.getD 1 0

/-- `csrc_count = b0 & 0x0F` -/
def rtpCsrc (d : List Nat) : Nat := rtpB0 d &&& 15

/-- `padding = (b0 >> 5) & 1` -/
def rtpPadBit (d : List Nat) : Nat := (rtpB0 d >>> 5) &&& 1

/-- `extension = (b0 >> 4) & 1` -/
def rtpExtBit (d : List Nat) : Nat := (rtpB0 d >>> 4) &&& 1

/-- `header_len = 12 + csrc_count * 4` -/
def rtpHl0 (d : List Nat) : Nat := 12 + rtpCsrc d * 4

/-- `ext_len`: big-endian 16-bit word at `header_len + 2`. -/
def rtpExtLen (d : List Nat) : Nat :=
  256 * d.getD (rtpHl0 d + 2) 0 + d.getD (rtpHl0 d + 3) 0

/-- The final header length: extended by `4 + ext_len * 4` when the
extension bit is set. -/
def rtpHl (d : List Nat) : Nat :=
  if rtpExtBit d = 1 then rtpHl0 d + 4 + rtpExtLen d * 4 else rtpHl0 d

def rtpSeq (d : List Nat) : Nat := 256 * d.getD 2 0 + d.getD 3 0

def rtpTs (d : List Nat) : Nat :=
  ((d.getD 4 0 * 256 + d.getD 5 0) * 256 + d.getD 6 0) * 256 + d.getD 7 0

def rtpSsrc (d : List Nat) : Nat :=
  ((d.getD 8 0 * 256 + d.getD 9 0) * 256 + d.getD 10 0) * 256 + d.getD 11 0

def mkRTPHeader (d : List Nat) (payload : List Nat) : RTPHeader :=
  ⟨rtpB0 d >>> 6, (rtpB1 d >>> 7) &&& 1, rtpB1 d &&& 127,
   rtpSeq d, rtpTs d, rtpSsrc d, payload⟩

/-- The padding epilogue of `parse_rtp_header` (lines 85-91), given the final
header length `hl` (already known to satisfy `hl ≤ d.length`). -/
def rtpFinish (d : List Nat) (hl : Nat) : Option RTPHeader :=
  if rtpPadBit d = 1 then
    let pad := (d.getLast?).getD 0
    if pad = 0 ∨ d.length - hl < pad then none
    else some (mkRTPHeader d ((d.drop hl).take (d.length - hl - pad)))
  else some (mkRTPHeader d (d.drop hl))

/-- `parse_rtp_header` of src/test.py; `none` models `return None`. -/
def parse_rtp_header (d : List Nat) : Option RTPHeader :=
  if d.length < 12 then none
  else if d.length < rtpHl0 d then none
  else if rtpExtBit d = 1 then
    if d.length < rtpHl0 d + 4 then none
    else if d.length < rtpHl0 d + 4 + rtpExtLen d * 4 then none
    else rtpFinish d (rtpHl0 d + 4 + rtpExtLen d * 4)
  else rtpFinish d (rtpHl0 d)

/-! ## Receiver state (the mutable locals of `main`, src/test.py 149-162) -/

structure RxState where
  fu_buffer : Option (List Nat)
  packets : Nat
  bytes_payload : Nat
  nal_units : Nat
  fu_complete : Nat
  fu_errors : Nat
  stap_units : Nat
  marker_count : Nat
  lost_packets : Nat
  out_of_order : Nat
  dup_packets : Nat
  last_seq : Option Nat
  start_code_index : Nat
  out : List Nat
deriving DecidableEq

def initState : RxState :=
  ⟨none, 0, 0, 0, 0, 0, 0, 0, 0, 0, 0, none, 0, []⟩

/-- `next_start_code` (src/test.py lines 180-186): returns the emitted bytes
and the new value of `start_code_index`.  `plan` is `start_code_seq`,
`dflt` the fixed fallback `start_code`. -/
def nextStartCode (plan dflt : List Nat) (i : Nat) : List Nat × Nat :=
  if h : i < plan.length then
    ((if plan.get ⟨i, h⟩ = 4 then START_CODE_4 else START_CODE_3), i + 1)
  else (dflt, i)

/-- The sequence-number bookkeeping of `main` (src/test.py lines 214-227):
given `last_seq` and the three anomaly counters, observe `seq`; returns the
new `(last_seq, lost_packets, dup_packets, out_of_order)`. -/
def seqObserve (last : Option Nat) (lost dup ooo seq : Nat) :
    Option Nat × Nat × Nat × Nat :=
  match last with
  | none => (some seq, lost, dup, ooo)
  | some l =>
    let delta := (seq + 65536 - l % 65536) % 65536
    if delta = 0 then (some seq, lost, dup + 1, ooo)
    else if delta = 1 then (some seq, lost, dup, ooo)
    else if delta < 32768 then (some seq, lost + (delta - 1), dup, ooo)
    else (some seq, lost, dup, ooo + 1)

/-- The STAP-A inner loop of `main` (src/test.py lines 251-264), with fuel.
`rest` is `payload[offset:]`.  Each iteration consumes at least two bytes of
`rest` and one unit of fuel, so fuel `rest.length` suffices. -/
def stapLoopF (plan dflt : List Nat) : Nat → List Nat → RxState → RxState
  | 0, _, s => s
  | fuel + 1, rest, s =>
    if rest.length < 2 then s
    else
      let nal_len := 256 * rest.getD 0 0 + rest.getD 1 0
      let r2 := rest.drop 2
      if r2.length < nal_len then { s with fu_errors := s.fu_errors + 1 }
      else
        let nal := r2.take nal_len
        let r3 := r2.drop nal_len
        if nal.isEmpty then stapLoopF plan dflt fuel r3 s
        else
          let sc := nextStartCode plan dflt s.start_code_index
          stapLoopF plan dflt fuel r3
            { s with out := s.out ++ sc.1 ++ nal,
                     nal_units := s.nal_units + 1,
                     stap_units := s.stap_units + 1,
                     start_code_index := sc.2 }

def stapLoop (plan dflt : List Nat) (rest : List Nat) (s : RxState) : RxState :=
  stapLoopF plan dflt rest.length rest s

/-- The NAL-type dispatch of `main` (src/test.py lines 242-298) on an RTP
payload `p` that has already passed the drop guards (nonempty). -/
def handlePayload (plan dflt : List Nat) (p : List Nat) (s : RxState) : RxState :=
  let nal_type := p.getD 0 0 &&& 31
  if nal_type < 24 then
    let sc := nextStartCode plan dflt s.start_code_index
    { s with out := s.out ++ sc.1 ++ p,
             nal_units := s.nal_units + 1,
             start_code_index := sc.2,
             fu_buffer := none }
  else if nal_type = 24 then
    stapLoop plan dflt (p.drop 1) s
  else if nal_type = 28 then
    if p.length < 2 then { s with fu_errors := s.fu_errors + 1 }
    else
      let fu_indicator := p.getD 0 0
      let fu_header := p.getD 1 0
      let start := (fu_header >>> 7) &&& 1
      let endf := (fu_header >>> 6) &&& 1
      let orig_type := fu_header &&& 31
      let reconstructed := (fu_indicator &&& 128) ||| (fu_indicator &&& 96) ||| orig_type
      let fragment := p.drop 2
      if start = 1 then
        let sc := nextStartCode plan dflt s.start_code_index
        let buf := sc.1 ++ reconstructed :: fragment
        if endf = 1 then
          { s with out := s.out ++ buf,
                   nal_units := s.nal_units + 1,
                   fu_complete := s.fu_complete + 1,
                   fu_buffer := none,
                   start_code_index := sc.2 }
        else { s with fu_buffer := some buf, start_code_index := sc.2 }
      else
        match s.fu_buffer with
        | none => { s with fu_errors := s.fu_errors + 1 }
        | some b =>
          let buf := b ++ fragment
          if endf = 1 then
            { s with out := s.out ++ buf,
                     nal_units := s.nal_units + 1,
                     fu_complete := s.fu_complete + 1,
                     fu_buffer := none }
          else { s with fu_buffer := some buf }
  else { s with fu_errors := s.fu_errors + 1 }

/-- The per-packet bookkeeping of `main` that precedes the NAL dispatch
(src/test.py lines 214-240): sequence classification, packet/byte/marker
counters. -/
def seqBump (s : RxState) (h : RTPHeader) : RxState :=
  let q := seqObserve s.last_seq s.lost_packets s.dup_packets s.out_of_order h.sequence
  { s with last_seq := q.1, lost_packets := q.2.1,
           dup_packets := q.2.2.1, out_of_order := q.2.2.2,
           packets := s.packets + 1,
           bytes_payload := s.bytes_payload + h.payload.length,
           marker_count := s.marker_count + (if h.marker ≠ 0 then 1 else 0) }

/-- One iteration of the receive loop of `main` (src/test.py lines 206-298)
for a received datagram `d`: the drop guards, sequence bookkeeping, counter
updates and the NAL-type dispatch. -/
def rxStep (plan dflt : List Nat) (s : RxState) (d : List Nat) : RxState :=
  match parse_rtp_header d with
  | none => s
  | some h =>
    if h.version ≠ 2 then s
    else if h.payload.isEmpty then s
    else handlePayload plan dflt h.payload (seqBump s h)

/-- The receive loop over a list of datagrams, in arrival order. -/
def rxRun (plan dflt : List Nat) (ds : List (List Nat)) (s : RxState) : RxState :=
  ds.foldl (rxStep plan dflt) s

/-! ## Claim-level apparatus: datagram builders, packetization of a NAL-unit
sequence into RTP payloads, and the expected emission. -/

/-- A minimal valid RTP datagram around payload `p`: version 2, no padding,
no extension, no CSRCs, marker 0, payload type 96, sequence/timestamp/ssrc 0. -/
def mkDatagram (p : List Nat) : List Nat :=
  128 :: 96 :: 0 :: 0 :: 0 :: 0 :: 0 :: 0 :: 0 :: 0 :: 0 :: 0 :: p

/-- Like `mkDatagram` but with an explicit sequence number `q < 65536`. -/
def mkSeqDatagram (q : Nat) (p : List Nat) : List Nat :=
  128 :: 96 :: (q / 256) :: (q % 256) :: 0 :: 0 :: 0 :: 0 :: 0 :: 0 :: 0 :: 0 :: p

/-- The start-code byte string for a recorded length (4-byte code for 4,
3-byte code otherwise), exactly as `next_start_code` chooses. -/
def scBytes (n : Nat) : List Nat := if n = 4 then START_CODE_4 else START_CODE_3

/-- The start code `next_start_code` emits at cursor `i` (without advancing). -/
def planSC (plan dflt : List Nat) (i : Nat) : List Nat :=
  if h : i < plan.length then scBytes (plan.get ⟨i, h⟩) else dflt

/-- Expected output for emitting the units `us` starting at cursor `i`:
each unit is prefixed by its planned start code, the cursor advancing by one
per unit. -/
def emitFrom (plan dflt : List Nat) : Nat → List (List Nat) → List Nat
  | _, [] => []
  | i, u :: us => planSC plan dflt i ++ u ++ emitFrom plan dflt (i + 1) us

/-- One packetization group: how a run of consecutive NAL units is carried
in RTP payloads (single NAL packet, STAP-A aggregate, or FU-A fragments of
one unit with header byte `h` and body pieces `pieces`). -/
inductive PGroup where
  | single (u : List Nat)
  | stap (us : List (List Nat))
  | fua (h : Nat) (pieces : List (List Nat))
deriving DecidableEq

/-- The NAL units a group carries. -/
def PGroup.units : PGroup → List (List Nat)
  | .single u => [u]
  | .stap us => us
  | .fua h pieces => [h :: pieces.flatten]

/-- Big-endian 16-bit length prefix. -/
def beLen (n : Nat) : List Nat := [n / 256, n % 256]

/-- STAP-A payload body: concatenated length-prefixed units. -/
def stapEncode (us : List (List Nat)) : List Nat :=
  (us.map (fun u => beLen u.length ++ u)).flatten

/-- FU indicator byte: forbidden bit and NRI of the original header, type 28. -/
def fuaInd (h : Nat) : Nat := (h &&& 128) ||| (h &&& 96) ||| 28

/-- FU header byte: start bit, end bit, original type. -/
def fuaHdr (h : Nat) (st en : Bool) : Nat :=
  (if st then 128 else 0) + (if en then 64 else 0) + (h &&& 31)

/-- FU-A payloads for the pieces after the first: middles, then the end. -/
def fuaRestPayloads (h : Nat) : List (List Nat) → List (List Nat)
  | [] => []
  | [p] => [fuaInd h :: fuaHdr h false true :: p]
  | p :: q :: rest => (fuaInd h :: fuaHdr h false false :: p) :: fuaRestPayloads h (q :: rest)

/-- The RTP payloads a group is carried in. -/
def PGroup.payloads : PGroup → List (List Nat)
  | .single u => [u]
  | .stap us => [24 :: stapEncode us]
  | .fua h pieces =>
    match pieces with
    | [] => []
    | p :: rest => (fuaInd h :: fuaHdr h true rest.isEmpty :: p) :: fuaRestPayloads h rest

/-- Well-formedness of a group: a single NAL packet carries a nonempty unit
whose type field is below 24; STAP-A sub-units are nonempty and fit a 16-bit
length; an FU-A group has a byte-valued header and at least one piece. -/
def PGroup.wf : PGroup → Bool
  | .single u => !u.isEmpty && decide (u.getD 0 0 &&& 31 < 24)
  | .stap us => !us.isEmpty && us.all (fun u => !u.isEmpty && decide (u.length < 65536))
  | .fua h pieces => decide (h < 256) && !pieces.isEmpty

/-- All NAL units of a packetization, in order. -/
def unitsOf (gs : List PGroup) : List (List Nat) := (gs.map PGroup.units).flatten

/-- All datagrams of a packetization, in order. -/
def packetsOf (gs : List PGroup) : List (List Nat) :=
  ((gs.map PGroup.payloads).flatten).map mkDatagram

/-- Validity of an Annex-B buffer for the round-trip claim: the scanner finds
a start code at position 0, and no scanned NAL slice is empty (`parse_annexb`
skips empty slices, so none may be dropped). -/
def annexBValid (data : List Nat) : Prop :=
  (find_start_codes data).head? = some 0 ∧
  (annexbSlices data).length = (find_start_codes data).length

/-- Modelled from the spec (claim C8 wording): scan left to right, at each
position testing the 4-byte start code before the 3-byte one wherever the
pattern fits within the buffer, advancing the cursor past a match. -/
def specSelectF (data : List Nat) : Nat → Nat → List Nat
  | 0, _ => []
  | fuel + 1, i =>
    if i + 4 ≤ data.length ∧ isSC4 data i then i :: specSelectF data fuel (i + 4)
    else if i + 3 ≤ data.length ∧ isSC3 data i then i :: specSelectF data fuel (i + 3)
    else if i < data.length then specSelectF data fuel (i + 1)
    else []

def specSelect (data : List Nat) : List Nat :=
  specSelectF data data.length 0

/-- Parse a STAP-A payload body (after the type byte) into its declared
length-prefixed sub-units, with an overrun flag: stops at the first declared
length that exceeds the remaining bytes (flag 1) or when fewer than two bytes
remain (flag 0). -/
def stapParseF : Nat → List Nat → List (List Nat) × Nat
  | 0, _ => ([], 0)
  | fuel + 1, rest =>
    if rest.length < 2 then ([], 0)
    else
      let n := 256 * rest.getD 0 0 + rest.getD 1 0
      let r2 := rest.drop 2
      if r2.length < n then ([], 1)
      else
        let q := stapParseF fuel (r2.drop n)
        (r2.take n :: q.1, q.2)

def stapParse (rest : List Nat) : List (List Nat) × Nat :=
  stapParseF rest.length rest

/-- Whether a datagram is an accepted FU-A fragment with the start bit set:
it parses, has version 2, a nonempty payload of NAL type 28 with at least
two bytes, and bit 7 of the FU header set. -/
def isFuaStart (d : List Nat) : Bool :=
  match parse_rtp_header d with
  | none => false
  | some h =>
    decide (h.version = 2) && !h.payload.isEmpty &&
    decide (h.payload.getD 0 0 &&& 31 = 28) &&
    decide (2 ≤ h.payload.length) &&
    decide ((h.payload.getD 1 0 >>> 7) &&& 1 = 1)

/-- Number of FU-A start packets in a datagram list. -/
def fuaStartCount (ds : List (List Nat)) : Nat := ds.countP isFuaStart

/-! # Basic lemmas about the receiver primitives -/

lemma nextStartCode_eq (plan dflt : List Nat) (i : Nat) :
    nextStartCode plan dflt i =
      (planSC plan dflt i, if i < plan.length then i + 1 else i) := by
  unfold nextStartCode planSC
  split
  · rename_i h
    simp [scBytes, h]
  · rename_i h
    simp [h]

lemma nextStartCode_exhausted (plan dflt : List Nat) (i : Nat) (h : plan.length ≤ i) :
    nextStartCode plan dflt i = (dflt, i) := by
  unfold nextStartCode
  rw [dif_neg (by omega)]

lemma parse_mkSeqDatagram (q : Nat) (p : List Nat) :
    parse_rtp_header (mkSeqDatagram q p) = some ⟨2, 0, 96, q, 0, 0, p⟩ := by
  have hb0 : rtpB0 (mkSeqDatagram q p) = 128 := rfl
  have hb1 : rtpB1 (mkSeqDatagram q p) = 96 := rfl
  have hhl : rtpHl0 (mkSeqDatagram q p) = 12 := by
    unfold rtpHl0 rtpCsrc
    rw [hb0]
    decide
  have hext : rtpExtBit (mkSeqDatagram q p) = 0 := by
    unfold rtpExtBit
    rw [hb0]
    decide
  have hpad : rtpPadBit (mkSeqDatagram q p) = 0 := by
    unfold rtpPadBit
    rw [hb0]
    decide
  have hlen : (mkSeqDatagram q p).length = p.length + 12 := by
    simp [mkSeqDatagram]
  have hhdr : mkRTPHeader (mkSeqDatagram q p) p = ⟨2, 0, 96, q, 0, 0, p⟩ := by
    unfold mkRTPHeader rtpSeq rtpTs rtpSsrc
    rw [hb0, hb1,
        show (mkSeqDatagram q p).getD 2 0 = q / 256 from rfl,
        show (mkSeqDatagram q p).getD 3 0 = q % 256 from rfl,
        show (mkSeqDatagram q p).getD 4 0 = 0 from rfl,
        show (mkSeqDatagram q p).getD 5 0 = 0 from rfl,
        show (mkSeqDatagram q p).getD 6 0 = 0 from rfl,
        show (mkSeqDatagram q p).getD 7 0 = 0 from rfl,
        show (mkSeqDatagram q p).getD 8 0 = 0 from rfl,
        show (mkSeqDatagram q p).getD 9 0 = 0 from rfl,
        show (mkSeqDatagram q p).getD 10 0 = 0 from rfl,
        show (mkSeqDatagram q p).getD 11 0 = 0 from rfl]
    simp only [RTPHeader.mk.injEq]
    exact ⟨by decide, by decide, by decide, by omega, by decide, by decide, trivial⟩
  unfold parse_rtp_header
  rw [hhl, hext, hlen]
  rw [if_neg (by omega), if_neg (by omega), if_neg (by decide)]
  unfold rtpFinish
  rw [hpad, if_neg (by decide),
      show (mkSeqDatagram q p).drop 12 = p from rfl]
  exact congrArg some hhdr

lemma parse_mkDatagram (p : List Nat) :
    parse_rtp_header (mkDatagram p) = some ⟨2, 0, 96, 0, 0, 0, p⟩ := by
  have h : mkDatagram p = mkSeqDatagram 0 p := rfl
  rw [h, parse_mkSeqDatagram]

lemma seqBump_out (s : RxState) (h : RTPHeader) : (seqBump s h).out = s.out := rfl

lemma seqBump_fu_buffer (s : RxState) (h : RTPHeader) :
    (seqBump s h).fu_buffer = s.fu_buffer := rfl

lemma seqBump_start_code_index (s : RxState) (h : RTPHeader) :
    (seqBump s h).start_code_index = s.start_code_index := rfl

lemma seqBump_nal_units (s : RxState) (h : RTPHeader) :
    (seqBump s h).nal_units = s.nal_units := rfl

lemma seqBump_fu_complete (s : RxState) (h : RTPHeader) :
    (seqBump s h).fu_complete = s.fu_complete := rfl

lemma seqBump_stap_units (s : RxState) (h : RTPHeader) :
    (seqBump s h).stap_units = s.stap_units := rfl

lemma seqBump_fu_errors (s : RxState) (h : RTPHeader) :
    (seqBump s h).fu_errors = s.fu_errors := rfl

lemma rxStep_mkSeqDatagram (plan dflt : List Nat) (s : RxState) (q : Nat)
    (p : List Nat) (hp : p ≠ []) :
    rxStep plan dflt s (mkSeqDatagram q p) =
      handlePayload plan dflt p (seqBump s ⟨2, 0, 96, q, 0, 0, p⟩) := by
  unfold rxStep
  rw [parse_mkSeqDatagram]
  simp [hp]

lemma rxStep_mkDatagram (plan dflt : List Nat) (s : RxState) (p : List Nat)
    (hp : p ≠ []) :
    rxStep plan dflt s (mkDatagram p) =
      handlePayload plan dflt p (seqBump s ⟨2, 0, 96, 0, 0, 0, p⟩) := by
  have h : mkDatagram p = mkSeqDatagram 0 p := rfl
  rw [h, rxStep_mkSeqDatagram plan dflt s 0 p hp]

/-! # Branch lemmas for `handlePayload` -/

lemma handlePayload_single (plan dflt : List Nat) (p : List Nat) (s : RxState)
    (h : p.getD 0 0 &&& 31 < 24) :
    handlePayload plan dflt p s =
      { s with out := s.out ++ planSC plan dflt s.start_code_index ++ p,
               nal_units := s.nal_units + 1,
               start_code_index := if s.start_code_index < plan.length
                 then s.start_code_index + 1 else s.start_code_index,
               fu_buffer := none } := by
  simp only [handlePayload]
  rw [if_pos h, nextStartCode_eq]

lemma handlePayload_stap (plan dflt : List Nat) (p : List Nat) (s : RxState)
    (h : p.getD 0 0 &&& 31 = 24) :
    handlePayload plan dflt p s = stapLoop plan dflt (p.drop 1) s := by
  simp only [handlePayload]
  rw [h]
  norm_num

lemma handlePayload_fua_short (plan dflt : List Nat) (i0 : Nat) (s : RxState)
    (h28 : i0 &&& 31 = 28) :
    handlePayload plan dflt [i0] s = { s with fu_errors := s.fu_errors + 1 } := by
  simp only [handlePayload]
  rw [show ([i0] : List Nat).getD 0 0 = i0 from rfl, h28]
  norm_num

lemma handlePayload_fua_start (plan dflt : List Nat) (i0 i1 : Nat) (frag : List Nat)
    (s : RxState) (h28 : i0 &&& 31 = 28)
    (hst : (i1 >>> 7) &&& 1 = 1) (hen : (i1 >>> 6) &&& 1 = 0) :
    handlePayload plan dflt (i0 :: i1 :: frag) s =
      { s with fu_buffer := some (planSC plan dflt s.start_code_index ++
                 ((i0 &&& 128) ||| (i0 &&& 96) ||| (i1 &&& 31)) :: frag),
               start_code_index := if s.start_code_index < plan.length
                 then s.start_code_index + 1 else s.start_code_index } := by
  simp only [handlePayload]
  rw [show (i0 :: i1 :: frag).getD 0 0 = i0 from rfl,
      show (i0 :: i1 :: frag).getD 1 0 = i1 from rfl,
      show (i0 :: i1 :: frag).drop 2 = frag from rfl,
      show (i0 :: i1 :: frag).length = frag.length + 2 from by simp,
      h28, hst, hen, nextStartCode_eq]
  norm_num

lemma handlePayload_fua_start_end (plan dflt : List Nat) (i0 i1 : Nat) (frag : List Nat)
    (s : RxState) (h28 : i0 &&& 31 = 28)
    (hst : (i1 >>> 7) &&& 1 = 1) (hen : (i1 >>> 6) &&& 1 = 1) :
    handlePayload plan dflt (i0 :: i1 :: frag) s =
      { s with out := s.out ++ planSC plan dflt s.start_code_index ++
                 ((i0 &&& 128) ||| (i0 &&& 96) ||| (i1 &&& 31)) :: frag,
               nal_units := s.nal_units + 1,
               fu_complete := s.fu_complete + 1,
               fu_buffer := none,
               start_code_index := if s.start_code_index < plan.length
                 then s.start_code_index + 1 else s.start_code_index } := by
  simp only [handlePayload]
  rw [show (i0 :: i1 :: frag).getD 0 0 = i0 from rfl,
      show (i0 :: i1 :: frag).getD 1 0 = i1 from rfl,
      show (i0 :: i1 :: frag).drop 2 = frag from rfl,
      show (i0 :: i1 :: frag).length = frag.length + 2 from by simp,
      h28, hst, hen, nextStartCode_eq]
  norm_num

lemma handlePayload_fua_cont_none (plan dflt : List Nat) (i0 i1 : Nat) (frag : List Nat)
    (s : RxState) (h28 : i0 &&& 31 = 28)
    (hst : (i1 >>> 7) &&& 1 = 0) (hbuf : s.fu_buffer = none) :
    handlePayload plan dflt (i0 :: i1 :: frag) s =
      { s with fu_errors := s.fu_errors + 1 } := by
  simp only [handlePayload]
  rw [show (i0 :: i1 :: frag).getD 0 0 = i0 from rfl,
      show (i0 :: i1 :: frag).getD 1 0 = i1 from rfl,
      show (i0 :: i1 :: frag).length = frag.length + 2 from by simp,
      h28, hst, hbuf]
  norm_num

lemma handlePayload_fua_cont_mid (plan dflt : List Nat) (i0 i1 : Nat) (frag b : List Nat)
    (s : RxState) (h28 : i0 &&& 31 = 28)
    (hst : (i1 >>> 7) &&& 1 = 0) (hen : (i1 >>> 6) &&& 1 = 0)
    (hbuf : s.fu_buffer = some b) :
    handlePayload plan dflt (i0 :: i1 :: frag) s =
      { s with fu_buffer := some (b ++ frag) } := by
  simp only [handlePayload]
  rw [show (i0 :: i1 :: frag).getD 0 0 = i0 from rfl,
      show (i0 :: i1 :: frag).getD 1 0 = i1 from rfl,
      show (i0 :: i1 :: frag).drop 2 = frag from rfl,
      show (i0 :: i1 :: frag).length = frag.length + 2 from by simp,
      h28, hst, hen, hbuf]
  norm_num

lemma handlePayload_fua_cont_end (plan dflt : List Nat) (i0 i1 : Nat) (frag b : List Nat)
    (s : RxState) (h28 : i0 &&& 31 = 28)
    (hst : (i1 >>> 7) &&& 1 = 0) (hen : (i1 >>> 6) &&& 1 = 1)
    (hbuf : s.fu_buffer = some b) :
    handlePayload plan dflt (i0 :: i1 :: frag) s =
      { s with out := s.out ++ b ++ frag,
               nal_units := s.nal_units + 1,
               fu_complete := s.fu_complete + 1,
               fu_buffer := none } := by
  simp only [handlePayload]
  rw [show (i0 :: i1 :: frag).getD 0 0 = i0 from rfl,
      show (i0 :: i1 :: frag).getD 1 0 = i1 from rfl,
      show (i0 :: i1 :: frag).drop 2 = frag from rfl,
      show (i0 :: i1 :: frag).length = frag.length + 2 from by simp,
      h28, hst, hen, hbuf]
  norm_num

lemma handlePayload_unsupported (plan dflt : List Nat) (p : List Nat) (s : RxState)
    (h24 : ¬ p.getD 0 0 &&& 31 < 24) (hs : p.getD 0 0 &&& 31 ≠ 24)
    (hf : p.getD 0 0 &&& 31 ≠ 28) :
    handlePayload plan dflt p s = { s with fu_errors := s.fu_errors + 1 } := by
  simp only [handlePayload]
  rw [if_neg h24, if_neg hs, if_neg hf]

/-! # The STAP-A loop versus the pure sub-unit parser -/

lemma stapLoopF_spec (plan dflt : List Nat) (fuel : Nat) :
    ∀ (rest : List Nat) (s : RxState),
    rest.length ≤ fuel →
    s.start_code_index + ((stapParseF fuel rest).1.filter (fun u => !u.isEmpty)).length
      ≤ plan.length →
    stapLoopF plan dflt fuel rest s =
      { s with
        out := s.out ++ emitFrom plan dflt s.start_code_index
          ((stapParseF fuel rest).1.filter (fun u => !u.isEmpty)),
        nal_units := s.nal_units +
          ((stapParseF fuel rest).1.filter (fun u => !u.isEmpty)).length,
        stap_units := s.stap_units +
          ((stapParseF fuel rest).1.filter (fun u => !u.isEmpty)).length,
        start_code_index := s.start_code_index +
          ((stapParseF fuel rest).1.filter (fun u => !u.isEmpty)).length,
        fu_errors := s.fu_errors + (stapParseF fuel rest).2 } := by
  induction fuel with
  | zero =>
    intro rest s h1 h2
    simp [stapLoopF, stapParseF, emitFrom]
  | succ fuel ih =>
    intro rest s h1 h2
    by_cases hr : rest.length < 2
    · rw [show stapParseF (fuel + 1) rest = ([], 0) from by rw [stapParseF, if_pos hr]]
        at h2 ⊢
      rw [show stapLoopF plan dflt (fuel + 1) rest s = s from by
        rw [stapLoopF, if_pos hr]]
      simp [emitFrom]
    · have hr2 : rest.length ≥ 2 := by omega
      by_cases hov : (rest.drop 2).length < 256 * rest.getD 0 0 + rest.getD 1 0
      · rw [show stapParseF (fuel + 1) rest = ([], 1) from by
          rw [stapParseF, if_neg hr, if_pos hov]] at h2 ⊢
        rw [show stapLoopF plan dflt (fuel + 1) rest s =
            { s with fu_errors := s.fu_errors + 1 } from by
          rw [stapLoopF, if_neg hr, if_pos hov]]
        simp [emitFrom]
      · set n := 256 * rest.getD 0 0 + rest.getD 1 0 with hn
        set r2 := rest.drop 2 with hr2d
        set nal := r2.take n with hnal
        set r3 := r2.drop n with hr3
        have hlen3 : r3.length ≤ fuel := by
          have : r2.length = rest.length - 2 := by rw [hr2d]; simp
          have : r3.length = r2.length - n := by rw [hr3]; simp
          omega
        have hparse : stapParseF (fuel + 1) rest =
            (nal :: (stapParseF fuel r3).1, (stapParseF fuel r3).2) := by
          rw [stapParseF, if_neg hr, if_neg hov]
        by_cases hemp : nal.isEmpty
        · have hfilter : (stapParseF (fuel + 1) rest).1.filter (fun u => !u.isEmpty) =
              (stapParseF fuel r3).1.filter (fun u => !u.isEmpty) := by
            rw [hparse]
            simp [List.filter_cons, hemp]
          rw [hfilter] at h2
          have hloop : stapLoopF plan dflt (fuel + 1) rest s =
              stapLoopF plan dflt fuel r3 s := by
            rw [stapLoopF, if_neg hr, if_neg hov, if_pos hemp]
          rw [hloop, ih r3 s hlen3 h2, hfilter, hparse]
        · have hfilter : (stapParseF (fuel + 1) rest).1.filter (fun u => !u.isEmpty) =
              nal :: (stapParseF fuel r3).1.filter (fun u => !u.isEmpty) := by
            rw [hparse]
            simp [List.filter_cons, hemp]
          rw [hfilter] at h2
          simp only [List.length_cons] at h2
          have hidx : s.start_code_index < plan.length := by omega
          have hloop : stapLoopF plan dflt (fuel + 1) rest s =
              stapLoopF plan dflt fuel r3
                { s with out := s.out ++ planSC plan dflt s.start_code_index ++ nal,
                         nal_units := s.nal_units + 1,
                         stap_units := s.stap_units + 1,
                         start_code_index := s.start_code_index + 1 } := by
            rw [stapLoopF, if_neg hr, if_neg hov, if_neg hemp, nextStartCode_eq,
                if_pos hidx]
          rw [hloop, ih]
          · rw [hfilter, hparse]
            simp only [List.length_cons, List.filter_cons]
            simp [emitFrom, List.append_assoc]
            constructor
            · omega
            constructor
            · omega
            omega
          · exact hlen3
          · simp only [List.length_cons] at h2 ⊢
            omega

/-! # Emission helpers -/

lemma emitFrom_append (plan dflt : List Nat) :
    ∀ (us vs : List (List Nat)) (i : Nat),
    emitFrom plan dflt i (us ++ vs) =
      emitFrom plan dflt i us ++ emitFrom plan dflt (i + us.length) vs := by
  intro us
  induction us with
  | nil => intro vs i; simp [emitFrom]
  | cons u us ih =>
    intro vs i
    simp only [List.cons_append, emitFrom, List.append_eq]
    rw [ih vs (i + 1), show i + 1 + us.length = i + (us.length + 1) from by omega]
    simp [List.append_assoc]

lemma drop_cons_get : ∀ (L : List Nat) (j : Nat) (a : Nat) (l : List Nat),
    L.drop j = a :: l → ∃ hj : j < L.length, L.get ⟨j, hj⟩ = a := by
  intro L
  induction L with
  | nil => intro j a l h; simp at h
  | cons x L ih =>
    intro j a l h
    cases j with
    | zero =>
      simp at h
      exact ⟨by simp, by simp [h.1]⟩
    | succ j =>
      simp only [List.drop_succ_cons] at h
      obtain ⟨hj, hg⟩ := ih j a l h
      exact ⟨by simp; omega, by simpa using hg⟩

lemma planSC_drop (plan dflt : List Nat) (j a : Nat) (l : List Nat)
    (h : plan.drop j = a :: l) : planSC plan dflt j = scBytes a := by
  obtain ⟨hj, hg⟩ := drop_cons_get plan j a l h
  unfold planSC
  rw [dif_pos hj, hg]

/-! # `stapParse` of a well-formed STAP-A encoding -/

lemma stapParseF_encode : ∀ (us : List (List Nat)) (fuel : Nat),
    (∀ u ∈ us, u.length < 65536) →
    (stapEncode us).length ≤ fuel →
    stapParseF fuel (stapEncode us) = (us, 0) := by
  intro us
  induction us with
  | nil =>
    intro fuel _ _
    cases fuel with
    | zero => rfl
    | succ fuel => rw [stapParseF, if_pos (by simp [stapEncode])]
  | cons u us ih =>
    intro fuel hwf hfuel
    have hu : u.length < 65536 := hwf u (by simp)
    have henc : stapEncode (u :: us) = (u.length / 256) :: (u.length % 256) ::
        (u ++ stapEncode us) := by
      simp [stapEncode, beLen]
    rw [henc] at hfuel ⊢
    cases fuel with
    | zero => simp at hfuel
    | succ fuel =>
      rw [stapParseF]
      rw [if_neg (by simp)]
      have hn : 256 * (((u.length / 256) :: (u.length % 256) ::
          (u ++ stapEncode us)).getD 0 0) + (((u.length / 256) :: (u.length % 256) ::
          (u ++ stapEncode us)).getD 1 0) = u.length := by
        show 256 * (u.length / 256) + u.length % 256 = u.length
        omega
      rw [show ((u.length / 256) :: (u.length % 256) ::
          (u ++ stapEncode us)).drop 2 = u ++ stapEncode us from rfl, hn]
      rw [if_neg (by simp)]
      have ht : (u ++ stapEncode us).take u.length = u := by
        simpa using List.take_left u (stapEncode us)
      have hd : (u ++ stapEncode us).drop u.length = stapEncode us := by
        simpa using List.drop_left u (stapEncode us)
      rw [ht, hd, ih fuel (fun v hv => hwf v (by simp [hv]))
        (by simp at hfuel; omega)]

/-! # FU-A bit identities (byte-valued headers) -/

lemma fuaInd_type (h : Nat) (hh : h < 256) : fuaInd h &&& 31 = 28 := by
  have hx : ∀ x, x < 256 → fuaInd x &&& 31 = 28 := by decide
  exact hx h hh

lemma fuaHdr_bit7 (h : Nat) (hh : h < 256) (st en : Bool) :
    (fuaHdr h st en >>> 7) &&& 1 = if st then 1 else 0 := by
  have h1 : ∀ x, x < 256 → (fuaHdr x true true >>> 7) &&& 1 = 1 := by decide
  have h2 : ∀ x, x < 256 → (fuaHdr x true false >>> 7) &&& 1 = 1 := by decide
  have h3 : ∀ x, x < 256 → (fuaHdr x false true >>> 7) &&& 1 = 0 := by decide
  have h4 : ∀ x, x < 256 → (fuaHdr x false false >>> 7) &&& 1 = 0 := by decide
  cases st <;> cases en <;>
    simp [h1 h hh, h2 h hh, h3 h hh, h4 h hh]

lemma fuaHdr_bit6 (h : Nat) (hh : h < 256) (st en : Bool) :
    (fuaHdr h st en >>> 6) &&& 1 = if en then 1 else 0 := by
  have h1 : ∀ x, x < 256 → (fuaHdr x true true >>> 6) &&& 1 = 1 := by decide
  have h2 : ∀ x, x < 256 → (fuaHdr x true false >>> 6) &&& 1 = 0 := by decide
  have h3 : ∀ x, x < 256 → (fuaHdr x false true >>> 6) &&& 1 = 1 := by decide
  have h4 : ∀ x, x < 256 → (fuaHdr x false false >>> 6) &&& 1 = 0 := by decide
  cases st <;> cases en <;>
    simp [h1 h hh, h2 h hh, h3 h hh, h4 h hh]

lemma fua_recon (h : Nat) (hh : h < 256) (st en : Bool) :
    (fuaInd h &&& 128) ||| (fuaInd h &&& 96) ||| (fuaHdr h st en &&& 31) = h := by
  have h1 : ∀ x, x < 256 →
      (fuaInd x &&& 128) ||| (fuaInd x &&& 96) ||| (fuaHdr x true true &&& 31) = x := by decide
  have h2 : ∀ x, x < 256 →
      (fuaInd x &&& 128) ||| (fuaInd x &&& 96) ||| (fuaHdr x true false &&& 31) = x := by decide
  have h3 : ∀ x, x < 256 →
      (fuaInd x &&& 128) ||| (fuaInd x &&& 96) ||| (fuaHdr x false true &&& 31) = x := by decide
  have h4 : ∀ x, x < 256 →
      (fuaInd x &&& 128) ||| (fuaInd x &&& 96) ||| (fuaHdr x false false &&& 31) = x := by decide
  cases st <;> cases en <;>
    simp [h1 h hh, h2 h hh, h3 h hh, h4 h hh]

/-! # Run lemmas -/

lemma rxRun_nil (plan dflt : List Nat) (s : RxState) : rxRun plan dflt [] s = s := rfl

lemma rxRun_cons (plan dflt : List Nat) (d : List Nat) (ds : List (List Nat))
    (s : RxState) :
    rxRun plan dflt (d :: ds) s = rxRun plan dflt ds (rxStep plan dflt s d) := rfl

lemma rxRun_append (plan dflt : List Nat) (ds1 ds2 : List (List Nat)) (s : RxState) :
    rxRun plan dflt (ds1 ++ ds2) s = rxRun plan dflt ds2 (rxRun plan dflt ds1 s) := by
  simp [rxRun, List.foldl_append]

lemma fuaRest_run (plan dflt : List Nat) (h : Nat) (hh : h < 256) :
    ∀ (pieces : List (List Nat)) (s : RxState) (b : List Nat),
    pieces ≠ [] → s.fu_buffer = some b →
    (rxRun plan dflt ((fuaRestPayloads h pieces).map mkDatagram) s).out
        = s.out ++ b ++ pieces.flatten
    ∧ (rxRun plan dflt ((fuaRestPayloads h pieces).map mkDatagram) s).fu_buffer = none
    ∧ (rxRun plan dflt ((fuaRestPayloads h pieces).map mkDatagram) s).start_code_index
        = s.start_code_index := by
  intro pieces
  induction pieces with
  | nil => intro s b hne; exact absurd rfl hne
  | cons p rest ih =>
    intro s b _ hbuf
    cases rest with
    | nil =>
      simp only [fuaRestPayloads, List.map_cons, List.map_nil]
      rw [rxRun_cons, rxRun_nil]
      rw [rxStep_mkDatagram plan dflt s (fuaInd h :: fuaHdr h false true :: p) (by simp)]
      rw [handlePayload_fua_cont_end plan dflt (fuaInd h) (fuaHdr h false true) p b
        (seqBump s ⟨2, 0, 96, 0, 0, 0, fuaInd h :: fuaHdr h false true :: p⟩)
        (fuaInd_type h hh)
        ((fuaHdr_bit7 h hh false true).trans (by norm_num))
        ((fuaHdr_bit6 h hh false true).trans (by norm_num))
        ((seqBump_fu_buffer s ⟨2, 0, 96, 0, 0, 0,
            fuaInd h :: fuaHdr h false true :: p⟩).trans hbuf)]
      refine ⟨?_, rfl, ?_⟩
      · simp [seqBump_out]
      · simp [seqBump_start_code_index]
    | cons q rest' =>
      simp only [fuaRestPayloads, List.map_cons]
      rw [rxRun_cons]
      rw [rxStep_mkDatagram plan dflt s (fuaInd h :: fuaHdr h false false :: p) (by simp)]
      rw [handlePayload_fua_cont_mid plan dflt (fuaInd h) (fuaHdr h false false) p b
        (seqBump s ⟨2, 0, 96, 0, 0, 0, fuaInd h :: fuaHdr h false false :: p⟩)
        (fuaInd_type h hh)
        ((fuaHdr_bit7 h hh false false).trans (by norm_num))
        ((fuaHdr_bit6 h hh false false).trans (by norm_num))
        ((seqBump_fu_buffer s ⟨2, 0, 96, 0, 0, 0,
            fuaInd h :: fuaHdr h false false :: p⟩).trans hbuf)]
      obtain ⟨ho, hb, hi⟩ := ih
        { seqBump s ⟨2, 0, 96, 0, 0, 0, fuaInd h :: fuaHdr h false false :: p⟩ with
          fu_buffer := some (b ++ p) }
        (b ++ p) (by simp) rfl
      refine ⟨?_, hb, ?_⟩
      · rw [ho]
        simp [seqBump_out, List.append_assoc]
      · rw [hi]
        simp [seqBump_start_code_index]

lemma group_run (plan dflt : List Nat) (g : PGroup) (s : RxState)
    (hwf : g.wf = true) (hbuf : s.fu_buffer = none)
    (hidx : s.start_code_index + g.units.length ≤ plan.length) :
    (rxRun plan dflt (g.payloads.map mkDatagram) s).out
        = s.out ++ emitFrom plan dflt s.start_code_index g.units
    ∧ (rxRun plan dflt (g.payloads.map mkDatagram) s).fu_buffer = none
    ∧ (rxRun plan dflt (g.payloads.map mkDatagram) s).start_code_index
        = s.start_code_index + g.units.length := by
  cases g with
  | single u =>
    simp only [PGroup.wf, Bool.and_eq_true, Bool.not_eq_true', List.isEmpty_eq_false,
      decide_eq_true_eq] at hwf
    obtain ⟨hne, htype⟩ := hwf
    simp only [PGroup.payloads, PGroup.units, List.map_cons, List.map_nil,
      List.length_cons, List.length_nil] at hidx ⊢
    rw [rxRun_cons, rxRun_nil,
        rxStep_mkDatagram plan dflt s u hne,
        handlePayload_single plan dflt u (seqBump s ⟨2, 0, 96, 0, 0, 0, u⟩) htype]
    have hi : s.start_code_index < plan.length := by omega
    refine ⟨?_, rfl, ?_⟩
    · simp [seqBump_out, seqBump_start_code_index, emitFrom, List.append_assoc]
    · simp [seqBump_start_code_index, hi]
  | stap us =>
    simp only [PGroup.wf, Bool.and_eq_true, Bool.not_eq_true', List.isEmpty_eq_false,
      List.all_eq_true, decide_eq_true_eq] at hwf
    obtain ⟨hne, hall⟩ := hwf
    simp only [PGroup.payloads, PGroup.units, List.map_cons, List.map_nil] at hidx ⊢
    rw [rxRun_cons, rxRun_nil,
        rxStep_mkDatagram plan dflt s (24 :: stapEncode us) (by simp),
        handlePayload_stap plan dflt (24 :: stapEncode us)
          (seqBump s ⟨2, 0, 96, 0, 0, 0, 24 :: stapEncode us⟩)
          (by show (24 : Nat) &&& 31 = 24; decide),
        show (24 :: stapEncode us).drop 1 = stapEncode us from rfl]
    rw [show stapLoop plan dflt (stapEncode us)
          (seqBump s ⟨2, 0, 96, 0, 0, 0, 24 :: stapEncode us⟩)
        = stapLoopF plan dflt (stapEncode us).length (stapEncode us)
          (seqBump s ⟨2, 0, 96, 0, 0, 0, 24 :: stapEncode us⟩) from rfl]
    have hparse := stapParseF_encode us (stapEncode us).length
      (fun v hv => ((hall v hv).2)) le_rfl
    have hfil : ((stapParseF (stapEncode us).length (stapEncode us)).1).filter
        (fun u => !u.isEmpty) = us := by
      rw [hparse]
      refine List.filter_eq_self.mpr (fun u hu => ?_)
      simp [(hall u hu).1]
    have h2 : (seqBump s ⟨2, 0, 96, 0, 0, 0, 24 :: stapEncode us⟩).start_code_index +
        ((stapParseF (stapEncode us).length (stapEncode us)).1.filter
          (fun u => !u.isEmpty)).length ≤ plan.length := by
      rw [hfil, seqBump_start_code_index]
      exact hidx
    rw [stapLoopF_spec plan dflt (stapEncode us).length (stapEncode us)
        (seqBump s ⟨2, 0, 96, 0, 0, 0, 24 :: stapEncode us⟩) le_rfl h2]
    refine ⟨?_, ?_, ?_⟩
    · simp [hfil, seqBump_out, seqBump_start_code_index]
    · simp [hparse, seqBump_fu_buffer, hbuf]
    · simp [hfil, seqBump_start_code_index]
  | fua hByte pieces =>
    simp only [PGroup.wf, Bool.and_eq_true, Bool.not_eq_true', List.isEmpty_eq_false,
      decide_eq_true_eq] at hwf
    obtain ⟨hb256, hpne⟩ := hwf
    cases pieces with
    | nil => exact absurd rfl hpne
    | cons p rest =>
      simp only [PGroup.payloads, PGroup.units, List.map_cons, List.length_cons,
        List.length_nil, List.isEmpty_cons, List.isEmpty_nil] at hidx ⊢
      have hi : s.start_code_index < plan.length := by omega
      cases rest with
      | nil =>
        simp only [List.isEmpty_nil]
        rw [rxRun_cons]
        rw [rxStep_mkDatagram plan dflt s
          (fuaInd hByte :: fuaHdr hByte true true :: p) (by simp)]
        rw [handlePayload_fua_start_end plan dflt (fuaInd hByte) (fuaHdr hByte true true) p
          (seqBump s ⟨2, 0, 96, 0, 0, 0, fuaInd hByte :: fuaHdr hByte true true :: p⟩)
          (fuaInd_type hByte hb256)
          ((fuaHdr_bit7 hByte hb256 true true).trans rfl)
          ((fuaHdr_bit6 hByte hb256 true true).trans rfl)]
        rw [show fuaRestPayloads hByte [] = [] from rfl]
        rw [show (List.map mkDatagram [] : List (List Nat)) = [] from rfl, rxRun_nil]
        rw [fua_recon hByte hb256 true true]
        refine ⟨?_, rfl, ?_⟩
        · simp [seqBump_out, seqBump_start_code_index, emitFrom, List.append_assoc]
        · simp [seqBump_start_code_index, hi]
      | cons q rest' =>
        simp only [List.isEmpty_cons]
        rw [rxRun_cons]
        rw [rxStep_mkDatagram plan dflt s
          (fuaInd hByte :: fuaHdr hByte true false :: p) (by simp)]
        rw [handlePayload_fua_start plan dflt (fuaInd hByte) (fuaHdr hByte true false) p
          (seqBump s ⟨2, 0, 96, 0, 0, 0, fuaInd hByte :: fuaHdr hByte true false :: p⟩)
          (fuaInd_type hByte hb256)
          ((fuaHdr_bit7 hByte hb256 true false).trans rfl)
          ((fuaHdr_bit6 hByte hb256 true false).trans rfl)]
        rw [fua_recon hByte hb256 true false]
        obtain ⟨ho, hbF, hiF⟩ := fuaRest_run plan dflt hByte hb256 (q :: rest')
          { seqBump s ⟨2, 0, 96, 0, 0, 0, fuaInd hByte :: fuaHdr hByte true false :: p⟩ with
            fu_buffer := some (planSC plan dflt
              (seqBump s ⟨2, 0, 96, 0, 0, 0,
                fuaInd hByte :: fuaHdr hByte true false :: p⟩).start_code_index ++
              hByte :: p),
            start_code_index := if (seqBump s ⟨2, 0, 96, 0, 0, 0,
                fuaInd hByte :: fuaHdr hByte true false :: p⟩).start_code_index < plan.length
              then (seqBump s ⟨2, 0, 96, 0, 0, 0,
                fuaInd hByte :: fuaHdr hByte true false :: p⟩).start_code_index + 1
              else (seqBump s ⟨2, 0, 96, 0, 0, 0,
                fuaInd hByte :: fuaHdr hByte true false :: p⟩).start_code_index }
          (planSC plan dflt (seqBump s ⟨2, 0, 96, 0, 0, 0,
            fuaInd hByte :: fuaHdr hByte true false :: p⟩).start_code_index ++ hByte :: p)
          (by simp) rfl
        refine ⟨?_, hbF, ?_⟩
        · rw [ho]
          simp [seqBump_out, seqBump_start_code_index, emitFrom, List.append_assoc]
        · rw [hiF]
          simp [seqBump_start_code_index, hi]

lemma groups_run (plan dflt : List Nat) :
    ∀ (gs : List PGroup) (s : RxState),
    (∀ g ∈ gs, g.wf = true) → s.fu_buffer = none →
    s.start_code_index + (unitsOf gs).length ≤ plan.length →
    (rxRun plan dflt (packetsOf gs) s).out
        = s.out ++ emitFrom plan dflt s.start_code_index (unitsOf gs)
    ∧ (rxRun plan dflt (packetsOf gs) s).fu_buffer = none
    ∧ (rxRun plan dflt (packetsOf gs) s).start_code_index
        = s.start_code_index + (unitsOf gs).length := by
  intro gs
  induction gs with
  | nil =>
    intro s _ hbuf _
    simp [packetsOf, unitsOf, rxRun_nil, emitFrom, hbuf]
  | cons g gs ih =>
    intro s hwf hbuf hidx
    have hpk : packetsOf (g :: gs) = g.payloads.map mkDatagram ++ packetsOf gs := by
      simp [packetsOf]
    have hun : unitsOf (g :: gs) = g.units ++ unitsOf gs := by
      simp [unitsOf]
    rw [hun, List.length_append] at hidx
    rw [hpk, hun, rxRun_append]
    obtain ⟨ho1, hb1, hi1⟩ := group_run plan dflt g s (hwf g (by simp)) hbuf (by omega)
    obtain ⟨ho2, hb2, hi2⟩ := ih (rxRun plan dflt (g.payloads.map mkDatagram) s)
      (fun g' hg' => hwf g' (by simp [hg'])) hb1 (by rw [hi1]; omega)
    refine ⟨?_, hb2, ?_⟩
    · rw [ho2, ho1, hi1, emitFrom_append, List.append_assoc]
    · rw [hi2, hi1, List.length_append]
      omega

/-! # Scanner lemmas -/

lemma findFromF_congr (data : List Nat) :
    ∀ (fuel fuel' i : Nat), data.length ≤ fuel + i → data.length ≤ fuel' + i →
    findFromF data fuel i = findFromF data fuel' i := by
  intro fuel
  induction fuel with
  | zero =>
    intro fuel' i h h'
    cases fuel' with
    | zero => rfl
    | succ fuel' =>
      show ([] : List Nat) = _
      simp only [findFromF]
      rw [if_neg (by omega)]
  | succ fuel ih =>
    intro fuel' i h h'
    cases fuel' with
    | zero =>
      show _ = ([] : List Nat)
      simp only [findFromF]
      rw [if_neg (by omega)]
    | succ fuel' =>
      simp only [findFromF]
      by_cases h3 : i + 3 < data.length
      · rw [if_pos h3, if_pos h3]
        by_cases h4 : isSC4 data i = true
        · rw [if_pos h4, if_pos h4, ih fuel' (i + 4) (by omega) (by omega)]
        · rw [if_neg h4, if_neg h4]
          by_cases hs3 : isSC3 data i = true
          · rw [if_pos hs3, if_pos hs3, ih fuel' (i + 3) (by omega) (by omega)]
          · rw [if_neg hs3, if_neg hs3, ih fuel' (i + 1) (by omega) (by omega)]
      · rw [if_neg h3, if_neg h3]

lemma collectFromF_eq_map (data : List Nat) :
    ∀ (fuel i : Nat),
    collectFromF data fuel i = (findFromF data fuel i).map (scLenAt data) := by
  intro fuel
  induction fuel with
  | zero => intro i; rfl
  | succ fuel ih =>
    intro i
    simp only [collectFromF, findFromF]
    by_cases h3 : i + 3 < data.length
    · rw [if_pos (show i + 4 ≤ data.length by omega), if_pos h3]
      by_cases h4 : isSC4 data i = true
      · rw [if_pos h4, if_pos h4]
        simp [List.map_cons, ih, scLenAt, h4]
      · rw [if_neg h4, if_neg h4]
        by_cases hs3 : isSC3 data i = true
        · rw [if_pos hs3, if_pos hs3]
          simp [List.map_cons, ih, scLenAt, h4]
        · rw [if_neg hs3, if_neg hs3, ih]
    · rw [if_neg (by omega), if_neg h3]
      rfl

lemma findFromF_cons (data : List Nat) :
    ∀ (fuel i p : Nat) (ps : List Nat), data.length ≤ fuel + i →
    findFromF data fuel i = p :: ps →
    i ≤ p ∧ p + 3 < data.length ∧
    (data.drop p).take (scLenAt data p) = scBytes (scLenAt data p) ∧
    p + scLenAt data p ≤ data.length ∧
    ps = findFromF data data.length (p + scLenAt data p) := by
  intro fuel
  induction fuel with
  | zero =>
    intro i p ps h hf
    exact absurd hf (by simp [findFromF])
  | succ fuel ih =>
    intro i p ps h hf
    simp only [findFromF] at hf
    by_cases h3 : i + 3 < data.length
    · rw [if_pos h3] at hf
      by_cases h4 : isSC4 data i = true
      · rw [if_pos h4] at hf
        injection hf with h1 h2
        subst h1
        have hsl : scLenAt data i = 4 := by simp [scLenAt, h4]
        have hsc : (data.drop i).take 4 = START_CODE_4 := by
          simpa [isSC4] using h4
        refine ⟨le_refl i, h3, ?_, ?_, ?_⟩
        · rw [hsl, hsc]
          rfl
        · have := congrArg List.length hsc
          simp [List.length_take, List.length_drop] at this
          omega
        · rw [hsl, ← h2]
          exact findFromF_congr data fuel data.length (i + 4) (by omega) (by omega)
      · rw [if_neg h4] at hf
        by_cases hs3 : isSC3 data i = true
        · rw [if_pos hs3] at hf
          injection hf with h1 h2
          subst h1
          have hsl : scLenAt data i = 3 := by simp [scLenAt, h4]
          have hsc : (data.drop i).take 3 = START_CODE_3 := by
            simpa [isSC3] using hs3
          refine ⟨le_refl i, h3, ?_, ?_, ?_⟩
          · rw [hsl, hsc]
            rfl
          · omega
          · rw [hsl, ← h2]
            exact findFromF_congr data fuel data.length (i + 3) (by omega) (by omega)
        · rw [if_neg hs3] at hf
          obtain ⟨hip, hrest⟩ := ih (i + 1) p ps (by omega) hf
          exact ⟨by omega, hrest⟩
    · rw [if_neg h3] at hf
      exact absurd hf (by simp)

lemma slicesAux_cons_eq (data : List Nat) (p : Nat) (ps : List Nat) :
    slicesAux data (p :: ps) =
      if (sliceAt data p (ps.headD data.length)).isEmpty then slicesAux data ps
      else sliceAt data p (ps.headD data.length) :: slicesAux data ps := by
  cases ps <;> rfl

lemma slicesAux_length_le (data : List Nat) :
    ∀ ps : List Nat, (slicesAux data ps).length ≤ ps.length := by
  intro ps
  induction ps with
  | nil => simp [slicesAux]
  | cons p ps ih =>
    rw [slicesAux_cons_eq]
    by_cases he : (sliceAt data p (ps.headD data.length)).isEmpty = true
    · rw [if_pos he]
      simp only [List.length_cons]
      omega
    · rw [if_neg he]
      simp only [List.length_cons]
      omega

lemma slicesAux_full (data : List Nat) (p : Nat) (ps' : List Nat)
    (hlen : (slicesAux data (p :: ps')).length = (p :: ps').length) :
    (sliceAt data p (ps'.headD data.length)).isEmpty = false ∧
    slicesAux data (p :: ps') =
      sliceAt data p (ps'.headD data.length) :: slicesAux data ps' ∧
    (slicesAux data ps').length = ps'.length := by
  rw [slicesAux_cons_eq] at hlen ⊢
  by_cases he : (sliceAt data p (ps'.headD data.length)).isEmpty = true
  · rw [if_pos he] at hlen
    have := slicesAux_length_le data ps'
    simp only [List.length_cons] at hlen
    omega
  · rw [if_neg he] at hlen ⊢
    simp only [List.length_cons] at hlen
    exact ⟨by simpa using he, rfl, by omega⟩

lemma drop_decompose (data : List Nat) (p sl : Nat) :
    data.drop p = (data.drop p).take sl ++ data.drop (p + sl) := by
  have h := List.take_append_drop sl (data.drop p)
  rw [List.drop_drop] at h
  exact h.symm

lemma scan_rebuild (data dflt : List Nat) :
    ∀ (k : Nat) (ps : List Nat) (j i p : Nat) (ps' : List Nat),
    ps.length ≤ k →
    ps = findFromF data data.length i →
    ps = p :: ps' →
    (slicesAux data ps).length = ps.length →
    ((findFromF data data.length 0).map (scLenAt data)).drop j = ps.map (scLenAt data) →
    emitFrom ((findFromF data data.length 0).map (scLenAt data)) dflt j
      (slicesAux data ps) = data.drop p := by
  intro k
  induction k with
  | zero =>
    intro ps j i p ps' hk hfind hcons _ _
    subst hcons
    simp at hk
  | succ k ih =>
    intro ps j i p ps' hk hfind hcons hslen hdrop
    subst hcons
    obtain ⟨hip, h3, hscBytes, hbound, hps'⟩ :=
      findFromF_cons data data.length i p ps' (by omega) hfind.symm
    obtain ⟨hne, hconsS, hslen'⟩ := slicesAux_full data p ps' hslen
    rw [hconsS]
    have hplan : planSC ((findFromF data data.length 0).map (scLenAt data)) dflt j
        = scBytes (scLenAt data p) := by
      apply planSC_drop _ dflt j _ (ps'.map (scLenAt data))
      rw [hdrop]
      simp
    cases ps' with
    | nil =>
      simp only [emitFrom, List.append_nil]
      rw [hplan, ← hscBytes]
      have hslice : sliceAt data p (List.headD ([] : List Nat) data.length)
          = data.drop (p + scLenAt data p) := by
        show (data.drop (p + scLenAt data p)).take
            (data.length - (p + scLenAt data p)) = _
        apply List.take_of_length_le
        simp [List.length_drop]
      rw [hslice]
      exact (drop_decompose data p (scLenAt data p)).symm
    | cons q ps'' =>
      simp only [emitFrom]
      rw [hplan, ← hscBytes]
      obtain ⟨hq, _, _, _, _⟩ :=
        findFromF_cons data data.length (p + scLenAt data p) q ps'' (by omega) hps'.symm
      have hdrop' : ((findFromF data data.length 0).map (scLenAt data)).drop (j + 1)
          = (q :: ps'').map (scLenAt data) := by
        have h1 : ((findFromF data data.length 0).map (scLenAt data)).drop (j + 1)
            = (((findFromF data data.length 0).map (scLenAt data)).drop j).drop 1 := by
          rw [List.drop_drop]
        rw [h1, hdrop]
        rfl
      have hrec := ih (q :: ps'') (j + 1) (p + scLenAt data p) q ps''
        (by simp only [List.length_cons] at hk ⊢; omega)
        hps' rfl hslen' hdrop'
      have hslice : sliceAt data p (List.headD (q :: ps'') data.length)
          = (data.drop (p + scLenAt data p)).take (q - (p + scLenAt data p)) := rfl
      rw [hrec, hslice]
      have e2 := drop_decompose data (p + scLenAt data p) (q - (p + scLenAt data p))
      rw [show p + scLenAt data p + (q - (p + scLenAt data p)) = q from by omega] at e2
      rw [List.append_assoc, ← e2]
      exact (drop_decompose data p (scLenAt data p)).symm

/-- C1: Round-trip: for every valid Annex-B byte buffer, scanning it into its
NAL units together with its ordered start-code lengths, repacketizing those
units into RTP payloads (as single-NAL, STAP-A, or FU-A packets, at any
fragmentation boundary), and feeding the packets through the depacketizer
with a Replay start-code plan built from the recorded lengths, produces an
output byte stream equal to the original buffer. -/
theorem c1_round_trip (data : List Nat) (gs : List PGroup) (dflt : List Nat)
    (hvalid : annexBValid data)
    (hwf : ∀ g ∈ gs, g.wf = true)
    (hunits : unitsOf gs = annexbSlices data) :
    (rxRun (collect_start_code_lengths data) dflt (packetsOf gs) initState).out
      = data := by
  obtain ⟨hhead, hslen⟩ := hvalid
  have hL : collect_start_code_lengths data
      = (findFromF data data.length 0).map (scLenAt data) :=
    collectFromF_eq_map data data.length 0
  cases hfind : find_start_codes data with
  | nil =>
    rw [hfind] at hhead
    simp at hhead
  | cons p ps' =>
    have hp0 : p = 0 := by
      rw [hfind] at hhead
      simpa using hhead
    subst hp0
    have hlen_units : (unitsOf gs).length
        = ((findFromF data data.length 0).map (scLenAt data)).length := by
      rw [hunits, hslen, List.length_map]
      rfl
    obtain ⟨ho, _, _⟩ := groups_run (collect_start_code_lengths data) dflt gs initState
      hwf rfl
      (by show 0 + (unitsOf gs).length ≤ _
          rw [hL, hlen_units]
          omega)
    rw [ho]
    show [] ++ emitFrom (collect_start_code_lengths data) dflt 0 (unitsOf gs) = data
    rw [List.nil_append, hunits, hL]
    have hslen2 : (slicesAux data (0 :: ps')).length = (0 :: ps').length := by
      have h := hslen
      rw [show annexbSlices data = slicesAux data (find_start_codes data) from rfl,
          hfind] at h
      exact h
    have hrebuild := scan_rebuild data dflt (0 :: ps').length (0 :: ps') 0 0 0 ps'
      le_rfl hfind.symm rfl hslen2
      (by rw [List.drop_zero]
          exact congrArg (List.map (scLenAt data)) hfind)
    rw [show annexbSlices data = slicesAux data (find_start_codes data) from rfl, hfind]
    rw [hrebuild]
    simp

theorem c1_round_trip_witness :
    (rxRun (collect_start_code_lengths
        [0, 0, 0, 1, 101, 1, 2, 0, 0, 1, 65, 7, 0, 0, 0, 1, 103, 3, 4, 5])
      START_CODE_4
      (packetsOf [PGroup.single [101, 1, 2], PGroup.stap [[65, 7]],
        PGroup.fua 103 [[3], [4, 5]]])
      initState).out
    = [0, 0, 0, 1, 101, 1, 2, 0, 0, 1, 65, 7, 0, 0, 0, 1, 103, 3, 4, 5] :=
  c1_round_trip [0, 0, 0, 1, 101, 1, 2, 0, 0, 1, 65, 7, 0, 0, 0, 1, 103, 3, 4, 5]
    [PGroup.single [101, 1, 2], PGroup.stap [[65, 7]], PGroup.fua 103 [[3], [4, 5]]]
    START_CODE_4 (by unfold annexBValid; decide) (by decide) (by decide)

/-- C4: sequence classification: with `delta = (seq - lastSeq) mod 65536`,
`delta = 0` increments the duplicate counter, `delta = 1` increments nothing,
`1 < delta < 32768` adds `delta - 1` to the lost counter, `delta ≥ 32768`
increments the out-of-order counter; on the first observation `lastSeq` is
recorded with no counter change; `lastSeq` is always updated to `seq`; and
65535 followed by 0 is classified in-order.  The delta formula used below
agrees with the signed modular difference. -/
theorem c4_sequence_classification (lost dup ooo seq : Nat) (hseq : seq < 65536) :
    (seqObserve none lost dup ooo seq = (some seq, lost, dup, ooo)) ∧
    (∀ l, l < 65536 →
      (((seq + 65536 - l) % 65536 : Nat) : Int) = ((seq : Int) - (l : Int)) % 65536 ∧
      ((seq + 65536 - l) % 65536 = 0 →
        seqObserve (some l) lost dup ooo seq = (some seq, lost, dup + 1, ooo)) ∧
      ((seq + 65536 - l) % 65536 = 1 →
        seqObserve (some l) lost dup ooo seq = (some seq, lost, dup, ooo)) ∧
      (1 < (seq + 65536 - l) % 65536 → (seq + 65536 - l) % 65536 < 32768 →
        seqObserve (some l) lost dup ooo seq
          = (some seq, lost + ((seq + 65536 - l) % 65536 - 1), dup, ooo)) ∧
      (32768 ≤ (seq + 65536 - l) % 65536 →
        seqObserve (some l) lost dup ooo seq = (some seq, lost, dup, ooo + 1))) ∧
    (seqObserve (some 65535) lost dup ooo 0 = (some 0, lost, dup, ooo)) := by
  refine ⟨rfl, ?_, ?_⟩
  · intro l hl
    have hmod : l % 65536 = l := Nat.mod_eq_of_lt hl
    refine ⟨by omega, ?_, ?_, ?_, ?_⟩
    · intro h0
      simp only [seqObserve, hmod]
      rw [if_pos h0]
    · intro h1
      simp only [seqObserve, hmod]
      rw [if_neg (by omega), if_pos h1]
    · intro h1 h2
      simp only [seqObserve, hmod]
      rw [if_neg (by omega), if_neg (by omega), if_pos h2]
    · intro h3
      simp only [seqObserve, hmod]
      rw [if_neg (by omega), if_neg (by omega), if_neg (by omega)]
  · simp only [seqObserve]
    norm_num

theorem c4_witness : seqObserve (some 11) 0 0 0 13 = (some 13, 1, 0, 0) := by
  have h := ((c4_sequence_classification 0 0 0 13 (by decide)).2.1 11
    (by decide)).2.2.2.1 (by decide) (by decide)
  exact h.trans (by decide)

/-- C5 counterexample: after feeding the sequence numbers 10, 11, 13, 12, 10
from fresh state, the duplicate counter is 0, not 1 as the claim states:
the final 10 sits 65534 positions ahead of `lastSeq = 12` modulo 65536, which
is ≥ 32768 and therefore classified out-of-order, not duplicate. -/
theorem c5_counterexample :
    (rxRun [] START_CODE_4
      ([10, 11, 13, 12, 10].map (fun q => mkSeqDatagram q [65]))
      initState).dup_packets = 0 := by decide

/-- C5 amended: feeding 10, 11, 13, 12, 10 from fresh state yields in-order,
in-order, lost (+1), out-of-order, and out-of-order again for the final 10
(which is behind 12 by more than half the sequence space); afterwards the
duplicate counter is 0, the lost counter 1, and the out-of-order counter 2.
The prefix runs below pin down each step's classification. -/
theorem c5_amended :
    ((rxRun [] START_CODE_4 ([10].map (fun q => mkSeqDatagram q [65]))
        initState).lost_packets = 0
      ∧ (rxRun [] START_CODE_4 ([10].map (fun q => mkSeqDatagram q [65]))
        initState).out_of_order = 0
      ∧ (rxRun [] START_CODE_4 ([10].map (fun q => mkSeqDatagram q [65]))
        initState).dup_packets = 0)
    ∧ ((rxRun [] START_CODE_4 ([10, 11].map (fun q => mkSeqDatagram q [65]))
        initState).lost_packets = 0
      ∧ (rxRun [] START_CODE_4 ([10, 11].map (fun q => mkSeqDatagram q [65]))
        initState).out_of_order = 0
      ∧ (rxRun [] START_CODE_4 ([10, 11].map (fun q => mkSeqDatagram q [65]))
        initState).dup_packets = 0)
    ∧ ((rxRun [] START_CODE_4 ([10, 11, 13].map (fun q => mkSeqDatagram q [65]))
        initState).lost_packets = 1
      ∧ (rxRun [] START_CODE_4 ([10, 11, 13].map (fun q => mkSeqDatagram q [65]))
        initState).out_of_order = 0
      ∧ (rxRun [] START_CODE_4 ([10, 11, 13].map (fun q => mkSeqDatagram q [65]))
        initState).dup_packets = 0)
    ∧ ((rxRun [] START_CODE_4 ([10, 11, 13, 12].map (fun q => mkSeqDatagram q [65]))
        initState).lost_packets = 1
      ∧ (rxRun [] START_CODE_4 ([10, 11, 13, 12].map (fun q => mkSeqDatagram q [65]))
        initState).out_of_order = 1
      ∧ (rxRun [] START_CODE_4 ([10, 11, 13, 12].map (fun q => mkSeqDatagram q [65]))
        initState).dup_packets = 0)
    ∧ ((rxRun [] START_CODE_4 ([10, 11, 13, 12, 10].map (fun q => mkSeqDatagram q [65]))
        initState).lost_packets = 1
      ∧ (rxRun [] START_CODE_4 ([10, 11, 13, 12, 10].map (fun q => mkSeqDatagram q [65]))
        initState).out_of_order = 2
      ∧ (rxRun [] START_CODE_4 ([10, 11, 13, 12, 10].map (fun q => mkSeqDatagram q [65]))
        initState).dup_packets = 0) := by decide

/-- C10: any datagram whose RTP header fails to decode, whose version is not
2, or whose decoded payload is empty is dropped before any state change: the
receive step is the identity on the whole state. -/
theorem c10_drop_guards (plan dflt : List Nat) (d : List Nat) (s : RxState)
    (h : parse_rtp_header d = none
      ∨ ∃ hd, parse_rtp_header d = some hd ∧ (hd.version ≠ 2 ∨ hd.payload = [])) :
    rxStep plan dflt s d = s := by
  unfold rxStep
  rcases h with h | ⟨hd, hp, hv⟩
  · rw [h]
  · rw [hp]
    rcases hv with hv | hv
    · simp [hv]
    · by_cases hv2 : hd.version ≠ 2
      · simp [hv2]
      · simp [hv2, hv]

theorem c10_witness :
    rxStep [3] START_CODE_4 initState (mkDatagram []) = initState :=
  c10_drop_guards [3] START_CODE_4 (mkDatagram []) initState
    (Or.inr ⟨⟨2, 0, 96, 0, 0, 0, []⟩, parse_mkDatagram [], Or.inr rfl⟩)

/-! # C8: the code's scanner versus the full-range left-to-right rule -/

lemma specSelectF_tail (data : List Nat) :
    ∀ (fuel i : Nat), data.length ≤ i + 3 →
    (specSelectF data fuel i).filter (fun p => decide (p + 4 ≤ data.length)) = [] := by
  intro fuel
  induction fuel with
  | zero => intro i h; rfl
  | succ fuel ih =>
    intro i h
    simp only [specSelectF]
    rw [if_neg (by rintro ⟨h', _⟩; omega)]
    by_cases h3 : i + 3 ≤ data.length ∧ isSC3 data i = true
    · rw [if_pos h3]
      rw [List.filter_cons]
      rw [decide_eq_false (show ¬(i + 4 ≤ data.length) from by omega)]
      simp only [Bool.false_eq_true, if_false]
      exact ih (i + 3) (by omega)
    · rw [if_neg h3]
      by_cases hlt : i < data.length
      · rw [if_pos hlt]
        exact ih (i + 1) (by omega)
      · rw [if_neg hlt]
        rfl

lemma findFromF_eq_specFilter (data : List Nat) :
    ∀ (fuel i : Nat),
    findFromF data fuel i
      = (specSelectF data fuel i).filter (fun p => decide (p + 4 ≤ data.length)) := by
  intro fuel
  induction fuel with
  | zero => intro i; rfl
  | succ fuel ih =>
    intro i
    simp only [findFromF, specSelectF]
    by_cases h3 : i + 3 < data.length
    · by_cases h4 : isSC4 data i = true
      · rw [if_pos h3, if_pos h4, if_pos (⟨by omega, h4⟩ :
          i + 4 ≤ data.length ∧ isSC4 data i = true)]
        rw [List.filter_cons,
            decide_eq_true (show i + 4 ≤ data.length from by omega)]
        simp only [if_true]
        rw [ih]
      · by_cases hs3 : isSC3 data i = true
        · rw [if_pos h3, if_neg h4, if_pos hs3,
              if_neg (show ¬(i + 4 ≤ data.length ∧ isSC4 data i = true) from by
                rintro ⟨_, hc⟩; exact h4 hc),
              if_pos (⟨by omega, hs3⟩ : i + 3 ≤ data.length ∧ isSC3 data i = true)]
          rw [List.filter_cons,
              decide_eq_true (show i + 4 ≤ data.length from by omega)]
          simp only [if_true]
          rw [ih]
        · rw [if_pos h3, if_neg h4, if_neg hs3,
              if_neg (show ¬(i + 4 ≤ data.length ∧ isSC4 data i = true) from by
                rintro ⟨_, hc⟩; exact h4 hc),
              if_neg (show ¬(i + 3 ≤ data.length ∧ isSC3 data i = true) from by
                rintro ⟨_, hc⟩; exact hs3 hc),
              if_pos (show i < data.length from by omega)]
          exact ih (i + 1)
    · rw [if_neg h3,
          if_neg (show ¬(i + 4 ≤ data.length ∧ isSC4 data i = true) from by
            rintro ⟨h', _⟩; omega)]
      by_cases hedge : i + 3 ≤ data.length ∧ isSC3 data i = true
      · rw [if_pos hedge]
        rw [List.filter_cons,
            decide_eq_false (show ¬(i + 4 ≤ data.length) from by omega)]
        simp only [Bool.false_eq_true, if_false]
        exact (specSelectF_tail data fuel (i + 3) (by omega)).symm
      · rw [if_neg hedge]
        by_cases hlt : i < data.length
        · rw [if_pos hlt]
          exact (specSelectF_tail data fuel (i + 1) (by omega)).symm
        · rw [if_neg hlt]
          rfl

/-- C8 counterexample: on the buffer `[0, 0, 1]` the code records no start
code (its loop tests only positions with at least four bytes remaining),
although the left-to-right rule of the claim selects position 0, where a
3-byte start code begins. -/
theorem c8_counterexample :
    find_start_codes [0, 0, 1] = [] ∧ specSelect [0, 0, 1] = [0] := by decide

/-- C8 amended: the recorded positions are exactly those selected by the
left-to-right rule (4-byte start code tested before 3-byte, cursor advanced
past each match) among positions `p` with `p + 4 ≤ length`: a 3-byte start
code beginning at the last possible position (`length - 3`) is never
recorded. -/
theorem c8_amended (data : List Nat) :
    find_start_codes data
      = (specSelect data).filter (fun p => decide (p + 4 ≤ data.length)) :=
  findFromF_eq_specFilter data data.length 0

/-- C2 counterexample: an FU-A start packet (opening an accumulation) followed
by a single-NAL packet abandons the unfinished buffer silently: the buffer is
discarded and never emitted, but the decode-error counter stays 0 where the
claim requires the abandonment to be counted.  (Payload `[124, 133, 1, 2]` is
an FU-A start for original header 0x65; `[65]` is a single NAL packet.) -/
theorem c2_counterexample :
    (rxRun [3, 4] START_CODE_4 [mkDatagram [124, 133, 1, 2], mkDatagram [65]]
      initState).fu_errors = 0
    ∧ (rxRun [3, 4] START_CODE_4 [mkDatagram [124, 133, 1, 2], mkDatagram [65]]
      initState).fu_buffer = none
    ∧ (rxRun [3, 4] START_CODE_4 [mkDatagram [124, 133, 1, 2], mkDatagram [65]]
      initState).out = [0, 0, 0, 1, 65] := by decide

/-- C2 amended: when a fragment accumulation is in progress and a single-NAL
packet arrives, or a new FU-A start arrives, the unfinished buffer is
discarded and never emitted, but the decode-error counter is NOT incremented:
the abandonment is silent.  First conjunct: a single-NAL payload clears the
buffer, leaves the error counter unchanged, and appends only the start code
and the new payload to the output.  Second conjunct: an FU-A start payload
replaces the buffer with the freshly seeded one, leaves the error counter
unchanged, and emits nothing. -/
theorem c2_amended (plan dflt : List Nat) (p b : List Nat) (s : RxState)
    (hbuf : s.fu_buffer = some b) :
    (p.getD 0 0 &&& 31 < 24 →
      (handlePayload plan dflt p s).fu_buffer = none ∧
      (handlePayload plan dflt p s).fu_errors = s.fu_errors ∧
      (handlePayload plan dflt p s).out
        = s.out ++ planSC plan dflt s.start_code_index ++ p)
    ∧ (∀ i0 i1 frag, p = i0 :: i1 :: frag → i0 &&& 31 = 28 →
        (i1 >>> 7) &&& 1 = 1 → (i1 >>> 6) &&& 1 = 0 →
        (handlePayload plan dflt p s).fu_buffer
          = some (planSC plan dflt s.start_code_index ++
              ((i0 &&& 128) ||| (i0 &&& 96) ||| (i1 &&& 31)) :: frag) ∧
        (handlePayload plan dflt p s).fu_errors = s.fu_errors ∧
        (handlePayload plan dflt p s).out = s.out) := by
  constructor
  · intro htype
    rw [handlePayload_single plan dflt p s htype]
    exact ⟨rfl, rfl, rfl⟩
  · intro i0 i1 frag hp h28 hst hen
    subst hp
    rw [handlePayload_fua_start plan dflt i0 i1 frag s h28 hst hen]
    exact ⟨rfl, rfl, rfl⟩

theorem c2_witness :
    (handlePayload [3, 4] START_CODE_4 [65]
      { initState with fu_buffer := some [0, 0, 1, 101, 1, 2] }).fu_buffer = none
    ∧ (handlePayload [3, 4] START_CODE_4 [65]
      { initState with fu_buffer := some [0, 0, 1, 101, 1, 2] }).fu_errors
        = ({ initState with fu_buffer := some [0, 0, 1, 101, 1, 2] } : RxState).fu_errors
    ∧ (handlePayload [3, 4] START_CODE_4 [65]
      { initState with fu_buffer := some [0, 0, 1, 101, 1, 2] }).out
        = ({ initState with fu_buffer := some [0, 0, 1, 101, 1, 2] } : RxState).out
          ++ planSC [3, 4] START_CODE_4
            ({ initState with fu_buffer := some [0, 0, 1, 101, 1, 2] } : RxState).start_code_index
          ++ [65] :=
  (c2_amended [3, 4] START_CODE_4 [65] [0, 0, 1, 101, 1, 2]
    { initState with fu_buffer := some [0, 0, 1, 101, 1, 2] } rfl).1 (by decide)

/-- C6: FU-A reassembly: for an FU-A payload of at least two bytes the
original NAL header is reconstructed as
`(fu_indicator &&& 0x80) ||| (fu_indicator &&& 0x60) ||| (fu_header &&& 0x1F)`;
start=1 opens a buffer seeded with start code, reconstructed header and
fragment bytes; start=0 with no active buffer counts an error and emits
nothing; start=0 with an active buffer appends the fragment; end=1 with an
active buffer emits the buffer as one NAL unit, increments the FU-A-complete
counter and clears the buffer.  Consequently fragmenting the NAL unit with
forbidden=0, ref_idc=2, type=5 (header byte 0x45 = 69) and payload "ABCDE"
into start, middle and end FU-A payloads and feeding them in order emits
exactly one unit whose bytes equal the original NAL unit after its start
code. -/
theorem c6_fua_reassembly (plan dflt : List Nat) :
    (∀ (i0 i1 : Nat) (frag : List Nat) (s : RxState),
      i0 &&& 31 = 28 → (i1 >>> 7) &&& 1 = 1 → (i1 >>> 6) &&& 1 = 0 →
      handlePayload plan dflt (i0 :: i1 :: frag) s =
        { s with
          fu_buffer := some (planSC plan dflt s.start_code_index ++
            ((i0 &&& 128) ||| (i0 &&& 96) ||| (i1 &&& 31)) :: frag),
          start_code_index := if s.start_code_index < plan.length
            then s.start_code_index + 1 else s.start_code_index })
    ∧ (∀ (i0 i1 : Nat) (frag : List Nat) (s : RxState),
      i0 &&& 31 = 28 → (i1 >>> 7) &&& 1 = 0 → s.fu_buffer = none →
      handlePayload plan dflt (i0 :: i1 :: frag) s =
        { s with fu_errors := s.fu_errors + 1 })
    ∧ (∀ (i0 i1 : Nat) (frag b : List Nat) (s : RxState),
      i0 &&& 31 = 28 → (i1 >>> 7) &&& 1 = 0 → (i1 >>> 6) &&& 1 = 0 →
      s.fu_buffer = some b →
      handlePayload plan dflt (i0 :: i1 :: frag) s =
        { s with fu_buffer := some (b ++ frag) })
    ∧ (∀ (i0 i1 : Nat) (frag b : List Nat) (s : RxState),
      i0 &&& 31 = 28 → (i1 >>> 7) &&& 1 = 0 → (i1 >>> 6) &&& 1 = 1 →
      s.fu_buffer = some b →
      handlePayload plan dflt (i0 :: i1 :: frag) s =
        { s with
          out := s.out ++ b ++ frag, nal_units := s.nal_units + 1,
          fu_complete := s.fu_complete + 1, fu_buffer := none })
    ∧ ((rxRun [4] START_CODE_4 [mkDatagram [92, 133, 65, 66],
          mkDatagram [92, 5, 67], mkDatagram [92, 69, 68, 69]] initState).out
        = [0, 0, 0, 1, 69, 65, 66, 67, 68, 69]
      ∧ (rxRun [4] START_CODE_4 [mkDatagram [92, 133, 65, 66],
          mkDatagram [92, 5, 67], mkDatagram [92, 69, 68, 69]] initState).nal_units = 1
      ∧ (rxRun [4] START_CODE_4 [mkDatagram [92, 133, 65, 66],
          mkDatagram [92, 5, 67], mkDatagram [92, 69, 68, 69]] initState).fu_complete
        = 1) := by
  refine ⟨?_, ?_, ?_, ?_, by decide, by decide, by decide⟩
  · intro i0 i1 frag s h28 hst hen
    exact handlePayload_fua_start plan dflt i0 i1 frag s h28 hst hen
  · intro i0 i1 frag s h28 hst hbuf
    exact handlePayload_fua_cont_none plan dflt i0 i1 frag s h28 hst hbuf
  · intro i0 i1 frag b s h28 hst hen hbuf
    exact handlePayload_fua_cont_mid plan dflt i0 i1 frag b s h28 hst hen hbuf
  · intro i0 i1 frag b s h28 hst hen hbuf
    exact handlePayload_fua_cont_end plan dflt i0 i1 frag b s h28 hst hen hbuf

theorem c6_witness :
    handlePayload [4] START_CODE_4 [92, 69, 68, 69]
      { initState with fu_buffer := some [0, 0, 0, 1, 69, 65, 66, 67] }
    = { initState with
        out := [0, 0, 0, 1, 69, 65, 66, 67, 68, 69],
        nal_units := 1, fu_complete := 1, fu_buffer := none } := by
  have h := (c6_fua_reassembly [4] START_CODE_4).2.2.2.1 92 69 [68, 69]
    [0, 0, 0, 1, 69, 65, 66, 67]
    { initState with fu_buffer := some [0, 0, 0, 1, 69, 65, 66, 67] }
    (by decide) (by decide) (by decide) rfl
  exact h.trans (by decide)

/-- C7 counterexample: a STAP-A payload declaring a single zero-length
sub-unit (`[24, 0, 0]`) emits nothing and increments neither the STAP-A
sub-unit counter nor the error counter, although the claim requires that for
each declared sub-unit a start code plus the unit bytes is emitted and the
counter incremented. -/
theorem c7_counterexample :
    (rxRun [3] START_CODE_4 [mkDatagram [24, 0, 0]] initState).stap_units = 0
    ∧ (rxRun [3] START_CODE_4 [mkDatagram [24, 0, 0]] initState).out = []
    ∧ (rxRun [3] START_CODE_4 [mkDatagram [24, 0, 0]] initState).fu_errors = 0 := by
  decide

/-- C7 amended: the payload after the first byte is read as a sequence of
2-byte big-endian length prefixes each followed by that many bytes; for each
such NONEMPTY unit a start code plus the unit bytes is emitted and the STAP-A
sub-unit counter is incremented, while zero-length sub-units are skipped with
no emission, no counter increment and no error; on overrun the error counter
is incremented exactly once and already-emitted sub-units are kept.  The
concrete conjuncts show a payload whose second unit's declared length exceeds
the remaining bytes: exactly the first unit is emitted and exactly one error
recorded. -/
theorem c7_stap_amended (plan dflt : List Nat) (rest : List Nat) (s : RxState)
    (hidx : s.start_code_index +
      ((stapParse rest).1.filter (fun u => !u.isEmpty)).length ≤ plan.length) :
    stapLoop plan dflt rest s =
      { s with
        out := s.out ++ emitFrom plan dflt s.start_code_index
          ((stapParse rest).1.filter (fun u => !u.isEmpty)),
        nal_units := s.nal_units +
          ((stapParse rest).1.filter (fun u => !u.isEmpty)).length,
        stap_units := s.stap_units +
          ((stapParse rest).1.filter (fun u => !u.isEmpty)).length,
        start_code_index := s.start_code_index +
          ((stapParse rest).1.filter (fun u => !u.isEmpty)).length,
        fu_errors := s.fu_errors + (stapParse rest).2 }
    ∧ (rxRun [3, 3] START_CODE_4 [mkDatagram [24, 0, 1, 65, 0, 5, 9]] initState).out
        = [0, 0, 1, 65]
    ∧ (rxRun [3, 3] START_CODE_4 [mkDatagram [24, 0, 1, 65, 0, 5, 9]] initState).fu_errors
        = 1
    ∧ (rxRun [3, 3] START_CODE_4 [mkDatagram [24, 0, 1, 65, 0, 5, 9]] initState).stap_units
        = 1 :=
  ⟨stapLoopF_spec plan dflt rest.length rest s le_rfl hidx,
   by decide, by decide, by decide⟩

theorem c7_witness :
    stapLoop [3, 3] START_CODE_4 [0, 1, 65, 0, 5, 9] initState
      = { initState with
          out := [0, 0, 1, 65], nal_units := 1, stap_units := 1,
          start_code_index := 1, fu_errors := 1 } := by
  have h := (c7_stap_amended [3, 3] START_CODE_4 [0, 1, 65, 0, 5, 9] initState
    (by decide)).1
  exact h.trans (by decide)

/-- C9: RTP header decoding fails (returning a skip signal, never crashing)
exactly when: the datagram is shorter than 12 bytes; or shorter than
`12 + 4 * csrc_count`; or, with the extension bit set, shorter than
`header_len + 4` or shorter than the header length extended by
`4 + 4 * ext_len`; or, with the padding bit set, the last byte is zero or
exceeds the remaining payload length.  On success the payload is the slice
from the final header length to the length minus the pad count.  In
particular a datagram of length 8 is rejected and never reaches the
depacketizer: the receive step is the identity on it. -/
theorem c9_rtp_header (d : List Nat) :
    (d.length < 12 → parse_rtp_header d = none)
    ∧ (12 ≤ d.length →
      (parse_rtp_header d = none ↔
        d.length < rtpHl0 d
        ∨ (rtpExtBit d = 1 ∧ (d.length < rtpHl0 d + 4 ∨ d.length < rtpHl d))
        ∨ (rtpPadBit d = 1 ∧ ((d.getLast?).getD 0 = 0
            ∨ d.length - rtpHl d < (d.getLast?).getD 0))))
    ∧ (∀ h, parse_rtp_header d = some h →
      h.payload = (d.drop (rtpHl d)).take (d.length - rtpHl d -
        (if rtpPadBit d = 1 then (d.getLast?).getD 0 else 0)))
    ∧ (∀ (plan dflt : List Nat) (s : RxState), d.length = 8 →
      rxStep plan dflt s d = s) := by
  refine ⟨?_, ?_, ?_, ?_⟩
  · intro h
    unfold parse_rtp_header
    rw [if_pos h]
  · intro h12
    unfold parse_rtp_header rtpFinish
    rw [if_neg (by omega)]
    by_cases hA : d.length < rtpHl0 d
    · rw [if_pos hA]
      simp [hA]
    · rw [if_neg hA]
      by_cases hext : rtpExtBit d = 1
      · have hHl : rtpHl d = rtpHl0 d + 4 + rtpExtLen d * 4 := by
          unfold rtpHl
          rw [if_pos hext]
        rw [if_pos hext]
        by_cases hB1 : d.length < rtpHl0 d + 4
        · rw [if_pos hB1]
          simp [hA, hext, hB1]
        · rw [if_neg hB1]
          by_cases hB2 : d.length < rtpHl0 d + 4 + rtpExtLen d * 4
          · rw [if_pos hB2]
            simp [hA, hext, hB1, hB2, hHl]
          · rw [if_neg hB2]
            by_cases hpad : rtpPadBit d = 1
            · rw [if_pos hpad]
              by_cases hC : (d.getLast?).getD 0 = 0 ∨
                  d.length - (rtpHl0 d + 4 + rtpExtLen d * 4) < (d.getLast?).getD 0
              · rw [if_pos hC]
                simp [hA, hext, hB1, hB2, hHl, hpad, hC]
              · rw [if_neg hC]
                simp [hA, hext, hB1, hB2, hHl, hpad, hC]
            · rw [if_neg hpad]
              simp [hA, hext, hB1, hB2, hHl, hpad]
      · have hHl : rtpHl d = rtpHl0 d := by
          unfold rtpHl
          rw [if_neg hext]
        rw [if_neg hext]
        by_cases hpad : rtpPadBit d = 1
        · rw [if_pos hpad]
          by_cases hC : (d.getLast?).getD 0 = 0 ∨
              d.length - rtpHl0 d < (d.getLast?).getD 0
          · rw [if_pos hC]
            simp [hA, hext, hHl, hpad, hC]
          · rw [if_neg hC]
            simp [hA, hext, hHl, hpad, hC]
        · rw [if_neg hpad]
          simp [hA, hext, hHl, hpad]
  · intro h hsome
    unfold parse_rtp_header rtpFinish at hsome
    by_cases h12 : d.length < 12
    · rw [if_pos h12] at hsome
      exact absurd hsome (by simp)
    · rw [if_neg h12] at hsome
      by_cases hA : d.length < rtpHl0 d
      · rw [if_pos hA] at hsome
        exact absurd hsome (by simp)
      · rw [if_neg hA] at hsome
        by_cases hext : rtpExtBit d = 1
        · have hHl : rtpHl d = rtpHl0 d + 4 + rtpExtLen d * 4 := by
            unfold rtpHl
            rw [if_pos hext]
          rw [if_pos hext] at hsome
          by_cases hB1 : d.length < rtpHl0 d + 4
          · rw [if_pos hB1] at hsome
            exact absurd hsome (by simp)
          · rw [if_neg hB1] at hsome
            by_cases hB2 : d.length < rtpHl0 d + 4 + rtpExtLen d * 4
            · rw [if_pos hB2] at hsome
              exact absurd hsome (by simp)
            · rw [if_neg hB2] at hsome
              by_cases hpad : rtpPadBit d = 1
              · rw [if_pos hpad] at hsome
                by_cases hC : (d.getLast?).getD 0 = 0 ∨
                    d.length - (rtpHl0 d + 4 + rtpExtLen d * 4) < (d.getLast?).getD 0
                · rw [if_pos hC] at hsome
                  exact absurd hsome (by simp)
                · rw [if_neg hC] at hsome
                  injection hsome with hsome
                  rw [← hsome, hHl, if_pos hpad]
                  rfl
              · rw [if_neg hpad] at hsome
                injection hsome with hsome
                rw [← hsome, hHl, if_neg hpad]
                show (d.drop (rtpHl0 d + 4 + rtpExtLen d * 4)) = _
                rw [List.take_of_length_le (by simp [List.length_drop])]
        · have hHl : rtpHl d = rtpHl0 d := by
            unfold rtpHl
            rw [if_neg hext]
          rw [if_neg hext] at hsome
          by_cases hpad : rtpPadBit d = 1
          · rw [if_pos hpad] at hsome
            by_cases hC : (d.getLast?).getD 0 = 0 ∨
                d.length - rtpHl0 d < (d.getLast?).getD 0
            · rw [if_pos hC] at hsome
              exact absurd hsome (by simp)
            · rw [if_neg hC] at hsome
              injection hsome with hsome
              rw [← hsome, hHl, if_pos hpad]
              rfl
          · rw [if_neg hpad] at hsome
            injection hsome with hsome
            rw [← hsome, hHl, if_neg hpad]
            show (d.drop (rtpHl0 d)) = _
            rw [List.take_of_length_le (by simp [List.length_drop])]
  · intro plan dflt s h8
    unfold rxStep
    rw [show parse_rtp_header d = none from by
      unfold parse_rtp_header
      rw [if_pos (by omega)]]

theorem c9_witness :
    parse_rtp_header [0, 0, 0, 0, 0, 0, 0, 0] = none
    ∧ rxStep [] START_CODE_4 initState [0, 0, 0, 0, 0, 0, 0, 0] = initState := by
  refine ⟨(c9_rtp_header [0, 0, 0, 0, 0, 0, 0, 0]).1 (by decide),
    (c9_rtp_header [0, 0, 0, 0, 0, 0, 0, 0]).2.2.2 [] START_CODE_4 initState (by decide)⟩

/-! # C3: cursor consumption accounting -/

lemma nextStartCode_idx_mono (plan dflt : List Nat) (i : Nat) :
    i ≤ (nextStartCode plan dflt i).2 := by
  rw [nextStartCode_eq]
  dsimp only
  split <;> omega

lemma stapLoopF_idx_mono (plan dflt : List Nat) :
    ∀ (fuel : Nat) (rest : List Nat) (s : RxState),
    s.start_code_index ≤ (stapLoopF plan dflt fuel rest s).start_code_index := by
  intro fuel
  induction fuel with
  | zero => intro rest s; exact Nat.le_refl _
  | succ fuel ih =>
    intro rest s
    simp only [stapLoopF]
    by_cases h2 : rest.length < 2
    · rw [if_pos h2]
    · rw [if_neg h2]
      by_cases hov : (rest.drop 2).length < 256 * rest.getD 0 0 + rest.getD 1 0
      · rw [if_pos hov]
      · rw [if_neg hov]
        by_cases hemp : ((rest.drop 2).take
            (256 * rest.getD 0 0 + rest.getD 1 0)).isEmpty = true
        · rw [if_pos hemp]
          exact ih _ s
        · rw [if_neg hemp]
          refine Nat.le_trans (nextStartCode_idx_mono plan dflt s.start_code_index)
            (ih ((rest.drop 2).drop (256 * rest.getD 0 0 + rest.getD 1 0))
              { s with
                out := s.out ++ (nextStartCode plan dflt s.start_code_index).1 ++
                  (rest.drop 2).take (256 * rest.getD 0 0 + rest.getD 1 0),
                nal_units := s.nal_units + 1,
                stap_units := s.stap_units + 1,
                start_code_index := (nextStartCode plan dflt s.start_code_index).2 })

lemma handlePayload_idx_mono (plan dflt : List Nat) (p : List Nat) (s : RxState) :
    s.start_code_index ≤ (handlePayload plan dflt p s).start_code_index := by
  by_cases h1 : p.getD 0 0 &&& 31 < 24
  · rw [handlePayload_single plan dflt p s h1]
    dsimp only
    split <;> omega
  · by_cases h2 : p.getD 0 0 &&& 31 = 24
    · rw [handlePayload_stap plan dflt p s h2]
      exact stapLoopF_idx_mono plan dflt _ _ s
    · by_cases h3 : p.getD 0 0 &&& 31 = 28
      · simp only [handlePayload]
        rw [if_neg h1, if_neg h2, if_pos h3]
        by_cases hlen : p.length < 2
        · rw [if_pos hlen]
        · rw [if_neg hlen]
          by_cases hst : (p.getD 1 0 >>> 7) &&& 1 = 1
          · rw [if_pos hst]
            by_cases hen : (p.getD 1 0 >>> 6) &&& 1 = 1
            · rw [if_pos hen]
              exact nextStartCode_idx_mono plan dflt s.start_code_index
            · rw [if_neg hen]
              exact nextStartCode_idx_mono plan dflt s.start_code_index
          · rw [if_neg hst]
            cases hbuf : s.fu_buffer with
            | none => exact Nat.le_refl _
            | some b =>
              split <;> first
                | exact Nat.le_refl _
                | (split <;> exact Nat.le_refl _)
      · rw [handlePayload_unsupported plan dflt p s h1 h2 h3]

lemma rxStep_idx_mono (plan dflt : List Nat) (s : RxState) (d : List Nat) :
    s.start_code_index ≤ (rxStep plan dflt s d).start_code_index := by
  unfold rxStep
  cases hp : parse_rtp_header d with
  | none => exact Nat.le_refl _
  | some hd =>
    show s.start_code_index ≤ (if hd.version ≠ 2 then s
      else if hd.payload.isEmpty = true then s
      else handlePayload plan dflt hd.payload (seqBump s hd)).start_code_index
    by_cases hv : hd.version ≠ 2
    · rw [if_pos hv]
    · rw [if_neg hv]
      by_cases he : hd.payload.isEmpty = true
      · rw [if_pos he]
      · rw [if_neg he]
        refine Nat.le_trans (Nat.le_of_eq (seqBump_start_code_index s hd).symm)
          (handlePayload_idx_mono plan dflt hd.payload (seqBump s hd))

lemma rxRun_idx_mono (plan dflt : List Nat) :
    ∀ (ds : List (List Nat)) (s : RxState),
    s.start_code_index ≤ (rxRun plan dflt ds s).start_code_index := by
  intro ds
  induction ds with
  | nil => intro s; exact Nat.le_refl _
  | cons d ds ih =>
    intro s
    rw [rxRun_cons]
    exact Nat.le_trans (rxStep_idx_mono plan dflt s d) (ih _)

lemma stapLoopF_c3 (plan dflt : List Nat) :
    ∀ (fuel : Nat) (rest : List Nat) (s : RxState),
    (stapLoopF plan dflt fuel rest s).start_code_index < plan.length →
    (stapLoopF plan dflt fuel rest s).start_code_index + s.nal_units
      = s.start_code_index + (stapLoopF plan dflt fuel rest s).nal_units
    ∧ (stapLoopF plan dflt fuel rest s).fu_complete = s.fu_complete := by
  intro fuel
  induction fuel with
  | zero => intro rest s h; exact ⟨rfl, rfl⟩
  | succ fuel ih =>
    intro rest s h
    simp only [stapLoopF] at h ⊢
    by_cases h2 : rest.length < 2
    · rw [if_pos h2] at h ⊢
      exact ⟨rfl, rfl⟩
    · rw [if_neg h2] at h ⊢
      by_cases hov : (rest.drop 2).length < 256 * rest.getD 0 0 + rest.getD 1 0
      · rw [if_pos hov] at h ⊢
        exact ⟨rfl, rfl⟩
      · rw [if_neg hov] at h ⊢
        by_cases hemp : ((rest.drop 2).take
            (256 * rest.getD 0 0 + rest.getD 1 0)).isEmpty = true
        · rw [if_pos hemp] at h ⊢
          exact ih _ s h
        · rw [if_neg hemp] at h ⊢
          by_cases hlt : s.start_code_index < plan.length
          · have hrec := ih ((rest.drop 2).drop (256 * rest.getD 0 0 + rest.getD 1 0))
              { s with
                out := s.out ++ (nextStartCode plan dflt s.start_code_index).1 ++
                  (rest.drop 2).take (256 * rest.getD 0 0 + rest.getD 1 0),
                nal_units := s.nal_units + 1,
                stap_units := s.stap_units + 1,
                start_code_index := (nextStartCode plan dflt s.start_code_index).2 } h
            simp only [nextStartCode_eq, if_pos hlt] at hrec ⊢
            obtain ⟨hr1, hr2⟩ := hrec
            constructor
            · omega
            · exact hr2
          · exfalso
            have hmono := stapLoopF_idx_mono plan dflt fuel
              ((rest.drop 2).drop (256 * rest.getD 0 0 + rest.getD 1 0))
              { s with
                out := s.out ++ (nextStartCode plan dflt s.start_code_index).1 ++
                  (rest.drop 2).take (256 * rest.getD 0 0 + rest.getD 1 0),
                nal_units := s.nal_units + 1,
                stap_units := s.stap_units + 1,
                start_code_index := (nextStartCode plan dflt s.start_code_index).2 }
            simp only [nextStartCode_eq, if_neg hlt] at hmono h
            omega

lemma handlePayload_c3 (plan dflt : List Nat) (p : List Nat) (s : RxState)
    (h : (handlePayload plan dflt p s).start_code_index < plan.length) :
    (handlePayload plan dflt p s).start_code_index
        + (handlePayload plan dflt p s).fu_complete + s.nal_units
      = s.start_code_index + s.fu_complete + (handlePayload plan dflt p s).nal_units
        + (if decide (p.getD 0 0 &&& 31 = 28) && decide (2 ≤ p.length) &&
             decide ((p.getD 1 0 >>> 7) &&& 1 = 1) then 1 else 0) := by
  by_cases h1 : p.getD 0 0 &&& 31 < 24
  · have hc : (decide (p.getD 0 0 &&& 31 = 28) && decide (2 ≤ p.length) &&
        decide ((p.getD 1 0 >>> 7) &&& 1 = 1)) = false := by
      rw [decide_eq_false (show ¬(p.getD 0 0 &&& 31 = 28) from by omega)]
      rfl
    rw [handlePayload_single plan dflt p s h1] at h ⊢
    rw [hc]
    simp only [Bool.false_eq_true, if_false]
    dsimp only at h ⊢
    by_cases hlt : s.start_code_index < plan.length
    · rw [if_pos hlt] at h ⊢
      omega
    · rw [if_neg hlt] at h ⊢
      omega
  · by_cases h2 : p.getD 0 0 &&& 31 = 24
    · have hc : (decide (p.getD 0 0 &&& 31 = 28) && decide (2 ≤ p.length) &&
          decide ((p.getD 1 0 >>> 7) &&& 1 = 1)) = false := by
        rw [decide_eq_false (show ¬(p.getD 0 0 &&& 31 = 28) from by omega)]
        rfl
      rw [handlePayload_stap plan dflt p s h2] at h ⊢
      rw [show stapLoop plan dflt (p.drop 1) s
        = stapLoopF plan dflt (p.drop 1).length (p.drop 1) s from rfl] at h ⊢
      rw [hc]
      simp only [Bool.false_eq_true, if_false]
      obtain ⟨hs1, hs2⟩ := stapLoopF_c3 plan dflt (p.drop 1).length (p.drop 1) s h
      omega
    · by_cases h3 : p.getD 0 0 &&& 31 = 28
      · by_cases hlen : p.length < 2
        · have hc : (decide (p.getD 0 0 &&& 31 = 28) && decide (2 ≤ p.length) &&
              decide ((p.getD 1 0 >>> 7) &&& 1 = 1)) = false := by
            rw [decide_eq_false (show ¬(2 ≤ p.length) from by omega)]
            simp only [Bool.and_false, Bool.false_and]
          simp only [handlePayload] at h ⊢
          rw [if_neg h1, if_neg h2, if_pos h3, if_pos hlen] at h ⊢
          rw [hc]
          simp only [Bool.false_eq_true, if_false]
          omega
        · cases p with
          | nil => simp at hlen
          | cons i0 t =>
            cases t with
            | nil => simp at hlen
            | cons i1 frag =>
              have hb : (i1 >>> 7) &&& 1 = 0 ∨ (i1 >>> 7) &&& 1 = 1 := by
                rw [Nat.and_one_is_mod]
                omega
              have hget1 : (i0 :: i1 :: frag).getD 1 0 = i1 := rfl
              rcases hb with hb0 | hb1
              · have hc : (decide ((i0 :: i1 :: frag).getD 0 0 &&& 31 = 28) &&
                    decide (2 ≤ (i0 :: i1 :: frag).length) &&
                    decide (((i0 :: i1 :: frag).getD 1 0 >>> 7) &&& 1 = 1)) = false := by
                  rw [decide_eq_false
                    (show ¬(((i0 :: i1 :: frag).getD 1 0 >>> 7) &&& 1 = 1) from by
                      rw [hget1]; omega)]
                  simp only [Bool.and_false]
                rw [hc]
                simp only [Bool.false_eq_true, if_false]
                cases hbuf : s.fu_buffer with
                | none =>
                  rw [handlePayload_fua_cont_none plan dflt i0 i1 frag s h3 hb0 hbuf]
                  dsimp only
                  omega
                | some b =>
                  by_cases hen : (i1 >>> 6) &&& 1 = 1
                  · rw [handlePayload_fua_cont_end plan dflt i0 i1 frag b s h3 hb0 hen hbuf]
                    dsimp only
                    omega
                  · have hen0 : (i1 >>> 6) &&& 1 = 0 := by
                      have hor : (i1 >>> 6) &&& 1 = 0 ∨ (i1 >>> 6) &&& 1 = 1 := by
                        rw [Nat.and_one_is_mod]
                        omega
                      omega
                    rw [handlePayload_fua_cont_mid plan dflt i0 i1 frag b s h3 hb0 hen0 hbuf]
                    dsimp only
                    omega
              · have hc : (decide ((i0 :: i1 :: frag).getD 0 0 &&& 31 = 28) &&
                    decide (2 ≤ (i0 :: i1 :: frag).length) &&
                    decide (((i0 :: i1 :: frag).getD 1 0 >>> 7) &&& 1 = 1)) = true := by
                  rw [decide_eq_true h3,
                      decide_eq_true (show 2 ≤ (i0 :: i1 :: frag).length from by simp),
                      decide_eq_true
                        (show ((i0 :: i1 :: frag).getD 1 0 >>> 7) &&& 1 = 1 from by
                          rw [hget1]; omega)]
                  rfl
                rw [hc]
                simp only [if_true]
                by_cases hen : (i1 >>> 6) &&& 1 = 1
                · rw [handlePayload_fua_start_end plan dflt i0 i1 frag s h3 hb1 hen] at h ⊢
                  dsimp only at h ⊢
                  by_cases hlt : s.start_code_index < plan.length
                  · rw [if_pos hlt] at h ⊢
                    omega
                  · rw [if_neg hlt] at h ⊢
                    omega
                · have hen0 : (i1 >>> 6) &&& 1 = 0 := by
                    have hor : (i1 >>> 6) &&& 1 = 0 ∨ (i1 >>> 6) &&& 1 = 1 := by
                      rw [Nat.and_one_is_mod]
                      omega
                    omega
                  rw [handlePayload_fua_start plan dflt i0 i1 frag s h3 hb1 hen0] at h ⊢
                  dsimp only at h ⊢
                  by_cases hlt : s.start_code_index < plan.length
                  · rw [if_pos hlt] at h ⊢
                    omega
                  · rw [if_neg hlt] at h ⊢
                    omega
      · have hc : (decide (p.getD 0 0 &&& 31 = 28) && decide (2 ≤ p.length) &&
            decide ((p.getD 1 0 >>> 7) &&& 1 = 1)) = false := by
          rw [decide_eq_false h3]
          rfl
        rw [handlePayload_unsupported plan dflt p s h1 h2 h3]
        rw [hc]
        simp only [Bool.false_eq_true, if_false]
        omega

lemma rxStep_c3 (plan dflt : List Nat) (d : List Nat) (s : RxState)
    (h : (rxStep plan dflt s d).start_code_index < plan.length) :
    (rxStep plan dflt s d).start_code_index + (rxStep plan dflt s d).fu_complete
        + s.nal_units
      = s.start_code_index + s.fu_complete + (rxStep plan dflt s d).nal_units
        + (if isFuaStart d then 1 else 0) := by
  cases hp : parse_rtp_header d with
  | none =>
    have hs : rxStep plan dflt s d = s := by
      unfold rxStep
      rw [hp]
    rw [hs]
    rw [show isFuaStart d = false from by
      unfold isFuaStart
      rw [hp]]
    simp
  | some hd =>
    have hstep : rxStep plan dflt s d = (if hd.version ≠ 2 then s
        else if hd.payload.isEmpty = true then s
        else handlePayload plan dflt hd.payload (seqBump s hd)) := by
      unfold rxStep
      rw [hp]
    rw [hstep] at h ⊢
    by_cases hv : hd.version ≠ 2
    · rw [if_pos hv] at h ⊢
      rw [show isFuaStart d = false from by
        unfold isFuaStart
        rw [hp]
        show (decide (hd.version = 2) && !hd.payload.isEmpty &&
          decide (hd.payload.getD 0 0 &&& 31 = 28) && decide (2 ≤ hd.payload.length) &&
          decide ((hd.payload.getD 1 0 >>> 7) &&& 1 = 1)) = false
        rw [decide_eq_false hv]
        rfl]
      simp
    · rw [if_neg hv] at h ⊢
      have hv2 : hd.version = 2 := by omega
      by_cases he : hd.payload.isEmpty = true
      · rw [if_pos he] at h ⊢
        rw [show isFuaStart d = false from by
          unfold isFuaStart
          rw [hp]
          show (decide (hd.version = 2) && !hd.payload.isEmpty &&
          decide (hd.payload.getD 0 0 &&& 31 = 28) && decide (2 ≤ hd.payload.length) &&
          decide ((hd.payload.getD 1 0 >>> 7) &&& 1 = 1)) = false
          rw [he, decide_eq_true hv2]
          rfl]
        simp
      · rw [if_neg he] at h ⊢
        have he' : hd.payload.isEmpty = false := by
          cases hb : hd.payload.isEmpty with
          | false => rfl
          | true => exact absurd hb he
        have hh := handlePayload_c3 plan dflt hd.payload (seqBump s hd) h
        rw [seqBump_start_code_index, seqBump_nal_units, seqBump_fu_complete] at hh
        rw [show isFuaStart d = (decide (hd.payload.getD 0 0 &&& 31 = 28) &&
            decide (2 ≤ hd.payload.length) &&
            decide ((hd.payload.getD 1 0 >>> 7) &&& 1 = 1)) from by
          unfold isFuaStart
          rw [hp]
          show (decide (hd.version = 2) && !hd.payload.isEmpty &&
          decide (hd.payload.getD 0 0 &&& 31 = 28) && decide (2 ≤ hd.payload.length) &&
          decide ((hd.payload.getD 1 0 >>> 7) &&& 1 = 1)) = (decide (hd.payload.getD 0 0 &&& 31 = 28) &&
            decide (2 ≤ hd.payload.length) &&
            decide ((hd.payload.getD 1 0 >>> 7) &&& 1 = 1))
          rw [he', decide_eq_true hv2]
          rfl]
        exact hh

lemma rxRun_c3 (plan dflt : List Nat) :
    ∀ (ds : List (List Nat)) (s : RxState),
    (rxRun plan dflt ds s).start_code_index < plan.length →
    (rxRun plan dflt ds s).start_code_index + (rxRun plan dflt ds s).fu_complete
        + s.nal_units
      = s.start_code_index + s.fu_complete + (rxRun plan dflt ds s).nal_units
        + fuaStartCount ds := by
  intro ds
  induction ds with
  | nil =>
    intro s h
    simp [rxRun_nil, fuaStartCount]
  | cons d ds ih =>
    intro s h
    rw [rxRun_cons] at h ⊢
    have hmono := rxRun_idx_mono plan dflt ds (rxStep plan dflt s d)
    have hstep := rxStep_c3 plan dflt d s (by omega)
    have hih := ih (rxStep plan dflt s d) h
    have hcount : fuaStartCount (d :: ds)
        = fuaStartCount ds + (if isFuaStart d then 1 else 0) := by
      simp [fuaStartCount, List.countP_cons]
    rw [hcount]
    omega

/-- C3 counterexample: an FU-A start packet followed by a single-NAL packet,
with a replay list of three entries (so the list is not exhausted), consumes
two replay positions while only one NAL unit is emitted to the output: the
position consumed at the FU-A fragment start is never matched by an emission
because the fragment is abandoned. -/
theorem c3_counterexample :
    (rxRun [3, 4, 3] START_CODE_4 [mkDatagram [124, 133, 1, 2], mkDatagram [65]]
      initState).start_code_index = 2
    ∧ (rxRun [3, 4, 3] START_CODE_4 [mkDatagram [124, 133, 1, 2], mkDatagram [65]]
      initState).nal_units = 1
    ∧ (rxRun [3, 4, 3] START_CODE_4 [mkDatagram [124, 133, 1, 2], mkDatagram [65]]
      initState).start_code_index < ([3, 4, 3] : List Nat).length := by decide

/-- C3 amended: in Replay mode one cursor position is consumed per emitted
single-NAL or STAP-A sub-unit and one per FU-A fragment START (when the
buffer is opened), not per FU-A completion: as long as the replay list is
not exhausted, `start_code_index + fu_complete = nal_units + (number of FU-A
start packets)`.  The consumed positions equal the emitted NAL units exactly
when every opened fragment completes; an abandoned fragment consumes a
position without an emission.  Once the list is exhausted, every call
returns the fixed default and the cursor no longer advances. -/
theorem c3_cursor_amended (plan dflt : List Nat) (ds : List (List Nat))
    (h : (rxRun plan dflt ds initState).start_code_index < plan.length) :
    (rxRun plan dflt ds initState).start_code_index
        + (rxRun plan dflt ds initState).fu_complete
      = (rxRun plan dflt ds initState).nal_units + fuaStartCount ds
    ∧ (∀ i, plan.length ≤ i → nextStartCode plan dflt i = (dflt, i)) := by
  constructor
  · have hr := rxRun_c3 plan dflt ds initState h
    have h0 : initState.nal_units = 0 := rfl
    have h1 : initState.start_code_index = 0 := rfl
    have h2 : initState.fu_complete = 0 := rfl
    omega
  · exact fun i hi => nextStartCode_exhausted plan dflt i hi

theorem c3_witness :
    (rxRun [3, 4] START_CODE_4 [mkDatagram [65]] initState).start_code_index
        + (rxRun [3, 4] START_CODE_4 [mkDatagram [65]] initState).fu_complete
      = (rxRun [3, 4] START_CODE_4 [mkDatagram [65]] initState).nal_units
        + fuaStartCount [mkDatagram [65]] :=
  (c3_cursor_amended [3, 4] START_CODE_4 [mkDatagram [65]] (by decide)).1
